import Mathlib

/-!
# Verification of the Kalshi weather-arbitrage daemon's decision pipeline

Shallow embedding of the probability engine, scanner filter cascade,
risk-gated executor, settlement loop and forecast ensemble of the
repository, together with theorems settling the frozen claims.

Conventions: exact arithmetic replaces Python floats (`ℚ` for the
computable pipeline, `ℝ` where the source uses transcendental
functions); cents are integers or rationals; Python `None` becomes
`Option`; exceptions raised by external calls become an explicit
`Except` oracle.
-/

open scoped BigOperators

namespace Kalshi

/- ────────────────────────────────────────────────────────────────────
   Configuration constants (src/kalshi/config.py)
   ──────────────────────────────────────────────────────────────────── -/

def MAX_CONTRACTS : ℤ := 8

def MAX_DAILY_LOSS_CENTS : ℤ := 500

def MAX_WEEKLY_LOSS_CENTS : ℤ := 1000

def MIN_PROVIDER_COUNT : ℕ := 1

/-- Python `int()` applied to a rational: truncation toward zero. -/
def pyInt (q : ℚ) : ℤ := if 0 ≤ q then ⌊q⌋ else ⌈q⌉

/- ────────────────────────────────────────────────────────────────────
   Kelly sizing (src/kalshi/probability.py, kelly_size)
   ──────────────────────────────────────────────────────────────────── -/

/-- `kelly_size(fair_p, market_price_cents, bankroll_cents, fraction=0.25)`:
quarter-Kelly position sizing for binary contracts, capped by
`MAX_CONTRACTS`.  Mirrors the source line by line. -/
def kelly_size (fair_p market_price_cents bankroll_cents : ℚ)
    (fraction : ℚ := 0.25) : ℤ :=
  if fair_p ≤ 0 ∨ 1 ≤ fair_p ∨ market_price_cents ≤ 0 then 0
  else
    let cost := market_price_cents
    let payout := 100 - cost
    let b := payout / cost
    let q := 1 - fair_p
    let f_star := (fair_p * b - q) / b
    let f_safe := max 0 (f_star * fraction)
    let max_contracts := pyInt (bankroll_cents * f_safe / cost)
    max 0 (min max_contracts MAX_CONTRACTS)

theorem pyInt_of_nonneg {q : ℚ} (h : 0 ≤ q) : pyInt q = ⌊q⌋ := by
  simp [pyInt, h]

/-- C3: for `p ∈ (0,1)`, `c ∈ (0,100)`, `B ≥ 0`, the returned count is the
clamped floor of `B·f_safe/c`, and it is `0` whenever `p ≤ c/100`. -/
theorem kelly_size_spec (p c B : ℚ) (hp0 : 0 < p) (hp1 : p < 1)
    (hc0 : 0 < c) (hc1 : c < 100) (hB : 0 ≤ B) :
    kelly_size p c B 0.25 =
      max 0 (min ⌊B * max 0 ((p * ((100 - c) / c) - (1 - p)) / ((100 - c) / c) * 0.25) / c⌋
        MAX_CONTRACTS)
    ∧ (p ≤ c / 100 → kelly_size p c B 0.25 = 0) := by
  have hguard : ¬ (p ≤ 0 ∨ 1 ≤ p ∨ c ≤ 0) := by
    push_neg
    exact ⟨hp0, hp1, hc0⟩
  have hb : (0:ℚ) < (100 - c) / c := div_pos (by linarith) hc0
  constructor
  · have hnn : 0 ≤ B * max 0 ((p * ((100 - c) / c) - (1 - p)) / ((100 - c) / c) * 0.25) / c :=
      div_nonneg (mul_nonneg hB (le_max_left 0 _)) hc0.le
    simp only [kelly_size, hguard, if_false]
    rw [pyInt_of_nonneg hnn]
  · intro hple
    have hnum : p * ((100 - c) / c) - (1 - p) ≤ 0 := by
      have h1 : p * ((100 - c) / c) - (1 - p) = (100 * p - c) / c := by
        field_simp
        ring
      rw [h1]
      apply div_nonpos_of_nonpos_of_nonneg _ hc0.le
      have : 100 * p ≤ c := by linarith
      linarith
    have hfstar : (p * ((100 - c) / c) - (1 - p)) / ((100 - c) / c) ≤ 0 :=
      div_nonpos_of_nonpos_of_nonneg hnum hb.le
    have hsafe : max 0 ((p * ((100 - c) / c) - (1 - p)) / ((100 - c) / c) * 0.25) = 0 := by
      apply max_eq_left
      nlinarith
    simp only [kelly_size, hguard, if_false]
    rw [hsafe]
    simp [pyInt, MAX_CONTRACTS]

/-- Witness for C3 at the spec's own scenario 4: bankroll 100 000¢,
p = 0.60, price 40¢ gives 8 contracts (raw 208 clamped to 8). -/
theorem kelly_size_spec_witness : kelly_size 0.6 40 100000 0.25 = 8 := by
  have h := (kelly_size_spec 0.6 40 100000
    (by norm_num) (by norm_num) (by norm_num) (by norm_num) (by norm_num)).1
  rw [h, MAX_CONTRACTS]
  norm_num

/- ────────────────────────────────────────────────────────────────────
   Per-provider accuracy reweighting
   (src/weather_providers.py, WeatherEnsemble._get_adjusted_weight)
   ──────────────────────────────────────────────────────────────────── -/

/-- The error samples of a history (pairs `(abs_error_F, unix_timestamp)`)
strictly newer than the 30-day cutoff before `now`:
`[error for error, ts in history if ts > recent_cutoff]`. -/
def recentErrors (now : ℚ) (history : List (ℚ × ℚ)) : List ℚ :=
  (history.filter fun s => now - 30 * 24 * 3600 < s.2).map Prod.fst

/-- `WeatherEnsemble._get_adjusted_weight(provider_name, base_weight)`.
The provider's stored history is passed explicitly (`none` when
`provider_name not in self.accuracy_history`) and `now` stands for
`time.time()`. -/
def get_adjusted_weight (now : ℚ) (history : Option (List (ℚ × ℚ)))
    (base_weight : ℚ) : ℚ :=
  match history with
  | none => base_weight
  | some h =>
    if h.length < 5 then base_weight
    else
      let recent_errors := recentErrors now h
      if recent_errors = [] then base_weight
      else
        let avg_error := recent_errors.sum / recent_errors.length
        let accuracy_multiplier := min 2 (max 0.25 (1 / max avg_error 0.5))
        base_weight * accuracy_multiplier

/-- C5 counterexample: a history of 5 stored samples of which only ONE is
newer than 30 days.  The claim says that with fewer than 5 recent samples
the base weight is returned unchanged, but the code checks the 5-sample
minimum against the full history and then happily averages the single
recent sample (error 0.5 °F, multiplier 2), doubling the weight. -/
theorem get_adjusted_weight_counterexample :
    get_adjusted_weight 10000000
      (some [(3, 0), (3, 0), (3, 0), (3, 0), (1/2, 10000000)]) 1 = 2 ∧
    (2 : ℚ) ≠ 1 := by
  constructor
  · have h1 : recentErrors 10000000 [(3, 0), (3, 0), (3, 0), (3, 0), (1/2, 10000000)] = [1/2] := by
      norm_num [recentErrors, List.filter]
    simp only [get_adjusted_weight, h1, List.length_cons, List.length_nil]
    norm_num
  · norm_num

/-- C5 amended: the 5-sample minimum is evaluated on the FULL stored
history; given at least 5 stored samples the adjustment considers only
samples newer than 30 days, applies no adjustment when there are zero
such samples, and otherwise multiplies the base weight by
`clamp(1 / max(avg_recent_error, 0.5), 0.25, 2.0)`, a multiplier that
always lies within `[0.25, 2.0]`. -/
theorem get_adjusted_weight_spec (now base : ℚ) (h : List (ℚ × ℚ)) :
    (h.length < 5 → get_adjusted_weight now (some h) base = base) ∧
    (recentErrors now h = [] → get_adjusted_weight now (some h) base = base) ∧
    (5 ≤ h.length → recentErrors now h ≠ [] →
      get_adjusted_weight now (some h) base =
        base * min 2 (max 0.25
          (1 / max ((recentErrors now h).sum / (recentErrors now h).length) 0.5)) ∧
      (0.25 : ℚ) ≤ min 2 (max 0.25
          (1 / max ((recentErrors now h).sum / (recentErrors now h).length) 0.5)) ∧
      min 2 (max 0.25
          (1 / max ((recentErrors now h).sum / (recentErrors now h).length) 0.5)) ≤ 2) := by
  refine ⟨fun hlen => ?_, fun hrec => ?_, fun hlen hrec => ⟨?_, ?_, ?_⟩⟩
  · simp [get_adjusted_weight, hlen]
  · simp [get_adjusted_weight, hrec]
  · simp [get_adjusted_weight, Nat.not_lt.mpr hlen, hrec]
  · exact le_min (by norm_num) (le_max_left _ _)
  · exact min_le_left _ _

/-- Witness for C5's amended theorem: 5 recent samples of error 1 °F give
multiplier 1, so a base weight of 3 is returned as 3. -/
theorem get_adjusted_weight_spec_witness :
    get_adjusted_weight 100 (some [(1, 100), (1, 100), (1, 100), (1, 100), (1, 100)]) 3 =
      3 * min 2 (max 0.25 (1 / max
        ((recentErrors 100 [(1, 100), (1, 100), (1, 100), (1, 100), (1, 100)]).sum /
          (recentErrors 100 [(1, 100), (1, 100), (1, 100), (1, 100), (1, 100)]).length) 0.5)) :=
  ((get_adjusted_weight_spec 100 3 [(1, 100), (1, 100), (1, 100), (1, 100), (1, 100)]).2.2
    (by norm_num)
    (by
      have h1 : recentErrors 100 [(1, 100), (1, 100), (1, 100), (1, 100), (1, 100)] =
          [1, 1, 1, 1, 1] := by
        norm_num [recentErrors, List.filter]
      simp [h1])).1

/- ────────────────────────────────────────────────────────────────────
   Data model: positions, P&L ledger, daemon state, opportunities
   (src/kalshi/state.py, src/kalshi/execution.py, src/kalshi/scanner.py)
   ──────────────────────────────────────────────────────────────────── -/

/-- Python `str.startswith`, evaluated on the character lists (the
builtin `String.startsWith` is irreducible for the kernel). -/
def strStartsWith (s p : String) : Bool := p.data.isPrefixOf s.data

/-- Association-list lookup by key, modelling Python `dict.get` on the
JSON objects of the persisted state and on in-memory dicts. -/
def alookup {κ α : Type} [DecidableEq κ] (k : κ) : List (κ × α) → Option α
  | [] => none
  | (k1, v) :: tl => if k1 = k then some v else alookup k tl

/-- One entry of the daemon's position list.  Payload fields the verified
claims never read (forecast, ensemble_details, fair/edge/confidence
telemetry) are omitted from the embedding. -/
structure Position where
  ticker : String
  side : String
  count : ℤ
  price : ℤ
  city : String
  target_date : Option String
  city_date : String
  trade_time : String
  paper_trade : Bool
deriving Repr

/-- One bucket of the P&L ledger (state.py, record_pnl). -/
structure PnlBucket where
  pnl_cents : ℤ
  trades : ℤ
  wins : ℤ
  losses : ℤ
deriving Repr, DecidableEq

/-- The P&L ledger: association lists standing for the JSON objects
`{"weeks": {...}, "daily": {...}}`. -/
structure PnlData where
  weeks : List (String × PnlBucket)
  daily : List (String × PnlBucket)
deriving Repr

/-- The persistent daemon state (state.py, load_state). -/
structure DaemonState where
  positions : List Position
  daily_trades : ℤ
  last_trade_date : String
  total_pnl_cents : ℤ
deriving Repr

/-- An opportunity dict as emitted by the scanner and consumed by the
executor. -/
structure Opp where
  city : String
  ticker : String
  event_ticker : String
  side : String
  price : ℤ
  fair : ℤ
  model_fair : ℤ
  raw_edge : ℝ
  adjusted_edge : ℝ
  confidence : ℝ
  volume : Option ℤ
  forecast : ℝ
  floor : Option ℝ
  cap : Option ℝ
  target_date : Option String

/- ────────────────────────────────────────────────────────────────────
   Risk constants and correlation groups (src/kalshi/config.py)
   ──────────────────────────────────────────────────────────────────── -/

def MAX_DAILY_TRADES : ℤ := 40

def MAX_OPEN_POSITIONS : ℤ := 20

def MAX_COST_PER_TRADE : ℤ := 500

def MAX_PER_GROUP : ℕ := 2

def CORRELATION_GROUPS : List (String × List String) :=
  [("gulf_south", ["HOU", "NOLA", "DAL", "OKC"]),
   ("northeast", ["BOS", "DC"]),
   ("pacific", ["SEA", "SFO"]),
   ("southeast", ["ATL"]),
   ("desert", ["PHX"]),
   ("north_central", ["MIN"])]

/-- `get_correlation_group(city)` (config.py). -/
def get_correlation_group (city : String) : String :=
  match CORRELATION_GROUPS.find? (fun g => g.2.contains city) with
  | some g => g.1
  | none => city

/- ────────────────────────────────────────────────────────────────────
   Circuit breaker (src/kalshi/execution.py, check_circuit_breaker)
   ──────────────────────────────────────────────────────────────────── -/

/-- Sum of `count·price` over positions whose `trade_time` ISO string
starts with the local or the UTC date of today. -/
def today_exposure (today today_utc : String) (positions : List Position) : ℤ :=
  ((positions.filter fun p =>
      strStartsWith p.trade_time today || strStartsWith p.trade_time today_utc).map
    fun p => p.count * p.price).sum

/-- `pnl_data.get('daily', {}).get(today, {}).get('pnl_cents', 0)`. -/
def daily_pnl_of (pnl_data : PnlData) (today : String) : ℤ :=
  ((alookup today pnl_data.daily).map PnlBucket.pnl_cents).getD 0

/-- `pnl_data.get('weeks', {}).get(week_key, {}).get('pnl_cents', 0)`. -/
def weekly_pnl_of (pnl_data : PnlData) (week_key : String) : ℤ :=
  ((alookup week_key pnl_data.weeks).map PnlBucket.pnl_cents).getD 0

/-- `check_circuit_breaker(pnl_data, state)`: the `can_trade` boolean.
The clock-derived keys `today`, `today_utc`, `week_key` are explicit
parameters; the human-readable reason string of the source is dropped. -/
def check_circuit_breaker (today today_utc week_key : String)
    (pnl_data : PnlData) (state : DaemonState) : Bool :=
  let daily_pnl := daily_pnl_of pnl_data today
  let weekly_pnl := weekly_pnl_of pnl_data week_key
  let exposure := today_exposure today today_utc state.positions
  let effective_daily := daily_pnl - exposure
  if effective_daily ≤ -MAX_DAILY_LOSS_CENTS then false
  else if weekly_pnl - exposure ≤ -MAX_WEEKLY_LOSS_CENTS then false
  else true

/- ────────────────────────────────────────────────────────────────────
   Trade executor (src/kalshi/execution.py, execute_trades)
   ──────────────────────────────────────────────────────────────────── -/

/-- The opportunity loop of `execute_trades` (its `for opp in
opportunities` body).  Stateful collaborators are explicit: `paper` is
`PAPER_TRADING`, `orderOk opp count` abstracts whether
`place_order` returns a filled order, `now_iso` is the UTC timestamp
written into the position record.  Returns `(trades_made, state)`. -/
def execute_loop (paper : Bool) (orderOk : Opp → ℤ → Bool) (now_iso : String)
    (open_count : ℤ) (open_tickers : List String) :
    List Opp → ℤ → ℤ → List String → List String → DaemonState → ℤ × DaemonState
  | [], trades_made, _, _, _, state => (trades_made, state)
  | opp :: rest, trades_made, balance, city_date_traded, all_held, state =>
    if MAX_DAILY_TRADES ≤ state.daily_trades then (trades_made, state)
    else if MAX_OPEN_POSITIONS ≤ open_count + trades_made then (trades_made, state)
    else if all_held.contains opp.ticker || open_tickers.contains opp.event_ticker
        || open_tickers.any (fun et => strStartsWith opp.ticker et) then
      execute_loop paper orderOk now_iso open_count open_tickers
        rest trades_made balance city_date_traded all_held state
    else
      let group := get_correlation_group opp.city
      if MAX_PER_GROUP ≤ (state.positions.filter
          fun p => get_correlation_group p.city == group).length then
        execute_loop paper orderOk now_iso open_count open_tickers
          rest trades_made balance city_date_traded all_held state
      else
        let city_date_key := match opp.target_date with
          | some td => opp.city ++ "_" ++ td
          | none => ""
        if opp.target_date.isSome &&
            (state.positions.any
              (fun p => p.city == opp.city && p.target_date == opp.target_date)
             || city_date_traded.contains city_date_key) then
          execute_loop paper orderOk now_iso open_count open_tickers
            rest trades_made balance city_date_traded all_held state
        else
          let count₀ := kelly_size ((opp.model_fair : ℚ) / 100) (opp.price : ℚ)
            (balance : ℚ) 0.25
          if count₀ < 1 then
            execute_loop paper orderOk now_iso open_count open_tickers
              rest trades_made balance city_date_traded all_held state
          else
            let count := if MAX_COST_PER_TRADE < count₀ * opp.price then
                Int.fdiv MAX_COST_PER_TRADE opp.price
              else count₀
            if MAX_COST_PER_TRADE < count₀ * opp.price ∧ count < 1 then
              execute_loop paper orderOk now_iso open_count open_tickers
                rest trades_made balance city_date_traded all_held state
            else
              let total_cost := count * opp.price
              if balance - 500 < total_cost then
                execute_loop paper orderOk now_iso open_count open_tickers
                  rest trades_made balance city_date_traded all_held state
              else
                let record : Position :=
                  { ticker := opp.ticker, side := opp.side, count := count,
                    price := opp.price, city := opp.city,
                    target_date := opp.target_date, city_date := city_date_key,
                    trade_time := now_iso, paper_trade := paper }
                if paper || orderOk opp count then
                  execute_loop paper orderOk now_iso open_count open_tickers
                    rest (trades_made + 1) (balance - total_cost)
                    (city_date_traded ++ [city_date_key]) (all_held ++ [opp.ticker])
                    { state with daily_trades := state.daily_trades + 1,
                                 positions := state.positions ++ [record] }
                else
                  execute_loop paper orderOk now_iso open_count open_tickers
                    rest trades_made (balance - total_cost)
                    city_date_traded all_held state

/-- `execute_trades(opportunities, state)`.  The venue collaborators are
explicit inputs: `balance` is `get_balance()`, `open_count` the number
of venue positions with positive exposure, `open_tickers` the held
event tickers from `get_positions()`.  Returns `(trades_made, state)`. -/
def execute_trades (paper : Bool) (orderOk : Opp → ℤ → Bool)
    (today today_utc week_key now_iso : String) (pnl_data : PnlData)
    (balance open_count : ℤ) (open_tickers : List String)
    (opportunities : List Opp) (state : DaemonState) : ℤ × DaemonState :=
  if check_circuit_breaker today today_utc week_key pnl_data state = false then
    (0, state)
  else
    let state₁ := if state.last_trade_date ≠ today then
        { state with daily_trades := 0, last_trade_date := today }
      else state
    let state_tickers := (state₁.positions.map Position.ticker).filter (· ≠ "")
    let all_held := open_tickers ++ state_tickers
    let city_date_traded := state₁.positions.foldr
      (fun p acc =>
        (if p.city_date ≠ "" then [p.city_date] else []) ++
        (match p.target_date with
         | some td => if p.city ≠ "" ∧ td ≠ "" then [p.city ++ "_" ++ td] else []
         | none => []) ++ acc) []
    execute_loop paper orderOk now_iso open_count open_tickers
      opportunities 0 balance city_date_traded all_held state₁

/-- C2: the circuit breaker trips exactly when
`daily_pnl − today_exposure ≤ −MAX_DAILY_LOSS_CENTS` or
`weekly_pnl − today_exposure ≤ −MAX_WEEKLY_LOSS_CENTS`, with
`today_exposure` summed over positions opened today (local or UTC
date); a tripped breaker makes `execute_trades` return 0 with the state
untouched. -/
theorem check_circuit_breaker_spec (today today_utc week_key : String)
    (pnl : PnlData) (state : DaemonState) :
    (check_circuit_breaker today today_utc week_key pnl state = false ↔
      daily_pnl_of pnl today - today_exposure today today_utc state.positions ≤
          -MAX_DAILY_LOSS_CENTS ∨
      weekly_pnl_of pnl week_key - today_exposure today today_utc state.positions ≤
          -MAX_WEEKLY_LOSS_CENTS) ∧
    (check_circuit_breaker today today_utc week_key pnl state = false →
      ∀ (paper : Bool) (orderOk : Opp → ℤ → Bool) (now_iso : String)
        (balance open_count : ℤ) (open_tickers : List String) (opps : List Opp),
        execute_trades paper orderOk today today_utc week_key now_iso pnl
          balance open_count open_tickers opps state = (0, state)) := by
  constructor
  · show (if _ then false else if _ then false else true) = false ↔ _
    split_ifs with h1 h2 <;> simp_all
  · intro h paper orderOk now_iso balance open_count open_tickers opps
    unfold execute_trades
    rw [h]
    simp

/-- Witness for C2 at the spec's scenario 3: daily pnl −200¢ and 400¢ of
exposure opened today give effective −600¢ ≤ −500¢; the executor places
nothing. -/
theorem check_circuit_breaker_spec_witness :
    execute_trades true (fun _ _ => true) "2026-02-14" "2026-02-14" "2026-W06"
      "2026-02-14T10:00:00+00:00"
      ⟨[], [("2026-02-14", ⟨-200, 1, 0, 1⟩)]⟩ 10000 0 [] []
      ⟨[⟨"KXHIGHTPHX-26FEB14-T95", "yes", 10, 40, "PHX", none, "",
         "2026-02-14T09:00:00+00:00", true⟩], 0, "", 0⟩ =
    (0, ⟨[⟨"KXHIGHTPHX-26FEB14-T95", "yes", 10, 40, "PHX", none, "",
         "2026-02-14T09:00:00+00:00", true⟩], 0, "", 0⟩) :=
  (check_circuit_breaker_spec "2026-02-14" "2026-02-14" "2026-W06"
      ⟨[], [("2026-02-14", ⟨-200, 1, 0, 1⟩)]⟩
      ⟨[⟨"KXHIGHTPHX-26FEB14-T95", "yes", 10, 40, "PHX", none, "",
         "2026-02-14T09:00:00+00:00", true⟩], 0, "", 0⟩).2
    (by decide) true (fun _ _ => true) "2026-02-14T10:00:00+00:00" 10000 0 [] []

/- ────────────────────────────────────────────────────────────────────
   P&L ledger recording (src/kalshi/state.py, record_pnl)
   ──────────────────────────────────────────────────────────────────── -/

/-- One bucket update of `record_pnl`: create the bucket if absent, then
add the amount, bump `trades`, and bump `wins` (amount > 0) or `losses`
(otherwise). -/
def bump_bucket (amount : ℤ) (key : String)
    (l : List (String × PnlBucket)) : List (String × PnlBucket) :=
  let cur := (alookup key l).getD ⟨0, 0, 0, 0⟩
  let upd : PnlBucket :=
    { pnl_cents := cur.pnl_cents + amount,
      trades := cur.trades + 1,
      wins := cur.wins + (if 0 < amount then 1 else 0),
      losses := cur.losses + (if 0 < amount then 0 else 1) }
  if (alookup key l).isSome then
    l.map fun kv => if kv.1 = key then (kv.1, upd) else kv
  else l ++ [(key, upd)]

/-- `record_pnl(amount_cents, ticker)` (state.py): records a settlement
result in both the daily and the weekly bucket.  The clock-derived keys
are explicit; `ticker` is accepted and unused, exactly as in the
source. -/
def record_pnl (amount_cents : ℤ) (ticker : String) (today week_key : String)
    (pnl : PnlData) : PnlData :=
  { daily := bump_bucket amount_cents today pnl.daily,
    weeks := bump_bucket amount_cents week_key pnl.weeks }

/- ────────────────────────────────────────────────────────────────────
   Settlement (src/kalshi/settlement.py, check_settled)
   ──────────────────────────────────────────────────────────────────── -/

/-- The body of `check_settled`'s per-position `try` block.  `fetch`
abstracts `kalshi_request('GET', '/trade-api/v2/markets/{ticker}')`
followed by `.get('market', {}).get('result')`: `.error` is an exception
raised while settling this position, `.ok none` (or `.ok (some "")`,
Python-falsy) a market without a result.  The accumulator carries
`(new_positions, total_pnl_cents, ledger)`. -/
def settle_step (fetch : String → Except Unit (Option String))
    (today week_key : String) (acc : List Position × ℤ × PnlData)
    (pos : Position) : List Position × ℤ × PnlData :=
  match fetch pos.ticker with
  | .error _ => (acc.1 ++ [pos], acc.2.1, acc.2.2)
  | .ok none => (acc.1 ++ [pos], acc.2.1, acc.2.2)
  | .ok (some result) =>
    if result = "" then (acc.1 ++ [pos], acc.2.1, acc.2.2)
    else
      let won := result = pos.side
      let pnl := if won then (100 - pos.price) * pos.count
        else -(pos.price * pos.count)
      (acc.1, acc.2.1 + pnl, record_pnl pnl pos.ticker today week_key acc.2.2)

/-- `check_settled(state)`: walk the open positions, resolve the settled
ones, replace `state['positions']` with the retained ones, and return
the updated state together with the ledger written by `record_pnl`. -/
def check_settled (fetch : String → Except Unit (Option String))
    (today week_key : String) (state : DaemonState) (pnl : PnlData) :
    DaemonState × PnlData :=
  let r := state.positions.foldl (settle_step fetch today week_key)
    ([], state.total_pnl_cents, pnl)
  ({ state with positions := r.1, total_pnl_cents := r.2.1 }, r.2.2)

theorem alookup_map_replace {κ α : Type} [DecidableEq κ] (k : κ) (upd : α)
    (l : List (κ × α)) (h : (alookup k l).isSome) :
    alookup k (l.map fun kv => if kv.1 = k then (kv.1, upd) else kv) = some upd := by
  induction l with
  | nil => simp [alookup] at h
  | cons hd tl ih =>
    cases hd with
    | mk k1 v =>
      by_cases h1 : k1 = k
      · subst h1
        simp only [List.map_cons, if_pos rfl]
        simp [alookup]
      · simp only [List.map_cons] at *
        rw [show (if (k1, v).1 = k then ((k1, v).1, upd) else (k1, v)) = (k1, v) from
          if_neg h1]
        simp only [alookup, if_neg h1] at h ⊢
        exact ih h

theorem alookup_append_single {κ α : Type} [DecidableEq κ] (k : κ) (u : α)
    (l : List (κ × α)) (h : alookup k l = none) :
    alookup k (l ++ [(k, u)]) = some u := by
  induction l with
  | nil => simp [alookup]
  | cons hd tl ih =>
    cases hd with
    | mk k1 v =>
      by_cases h1 : k1 = k
      · simp [alookup, h1] at h
      · simp only [alookup, if_neg h1, List.cons_append] at h ⊢
        exact ih h

/-- After `bump_bucket`, the bucket at `key` holds the old bucket (or a
fresh zero bucket) with the amount added and the counters bumped. -/
theorem alookup_bump_bucket (a : ℤ) (k : String)
    (l : List (String × PnlBucket)) :
    alookup k (bump_bucket a k l) = some
      ⟨((alookup k l).getD ⟨0, 0, 0, 0⟩).pnl_cents + a,
       ((alookup k l).getD ⟨0, 0, 0, 0⟩).trades + 1,
       ((alookup k l).getD ⟨0, 0, 0, 0⟩).wins + (if 0 < a then 1 else 0),
       ((alookup k l).getD ⟨0, 0, 0, 0⟩).losses + (if 0 < a then 0 else 1)⟩ := by
  unfold bump_bucket
  by_cases h : (alookup k l).isSome
  · rw [if_pos h]
    exact alookup_map_replace k _ l h
  · have hn : alookup k l = none := Option.not_isSome_iff_eq_none.mp h
    rw [if_neg h, alookup_append_single k _ l hn, hn]

theorem settle_fold_shift (fetch : String → Except Unit (Option String))
    (today week_key : String) (l : List Position) (a : List Position)
    (t : ℤ) (L : PnlData) :
    l.foldl (settle_step fetch today week_key) (a, t, L) =
      (a ++ (l.foldl (settle_step fetch today week_key) ([], t, L)).1,
       (l.foldl (settle_step fetch today week_key) ([], t, L)).2) := by
  induction l generalizing a t L with
  | nil => simp
  | cons p rest ih =>
    simp only [List.foldl_cons]
    rcases hf : fetch p.ticker with e | r
    · rw [show settle_step fetch today week_key (a, t, L) p = (a ++ [p], t, L) by
        simp [settle_step, hf]]
      rw [show settle_step fetch today week_key ([], t, L) p = ([] ++ [p], t, L) by
        simp [settle_step, hf]]
      rw [ih, ih ([] ++ [p])]
      simp
    · match r with
      | none =>
        rw [show settle_step fetch today week_key (a, t, L) p = (a ++ [p], t, L) by
          simp [settle_step, hf]]
        rw [show settle_step fetch today week_key ([], t, L) p = ([] ++ [p], t, L) by
          simp [settle_step, hf]]
        rw [ih, ih ([] ++ [p])]
        simp
      | some res =>
        by_cases hres : res = ""
        · rw [show settle_step fetch today week_key (a, t, L) p = (a ++ [p], t, L) by
            simp [settle_step, hf, hres]]
          rw [show settle_step fetch today week_key ([], t, L) p = ([] ++ [p], t, L) by
            simp [settle_step, hf, hres]]
          rw [ih, ih ([] ++ [p])]
          simp
        · have hstep : ∀ (a' : List Position),
              settle_step fetch today week_key (a', t, L) p =
              (a', t + (if res = p.side then (100 - p.price) * p.count
                else -(p.price * p.count)),
               record_pnl (if res = p.side then (100 - p.price) * p.count
                else -(p.price * p.count)) p.ticker today week_key L) := by
            intro a'
            simp [settle_step, hf, hres]
          rw [hstep a, hstep []]
          rw [ih, ih []]

/-- C8: during settlement a position whose market has no `result` is kept
unchanged; a settled position contributes `won = (result == side)`,
`pnl = (100−price)·count` on a win and `−price·count` on a loss, added
exactly once to `total_pnl_cents` and to both the daily and the weekly
ledger bucket; and an exception while settling one position retains that
position and leaves the settlement of all positions before and after it
untouched. -/
theorem check_settled_spec (fetch : String → Except Unit (Option String))
    (today week_key : String) (s : DaemonState) (L : PnlData) (p : Position)
    (l1 l2 : List Position) :
    (fetch p.ticker = .ok none →
      check_settled fetch today week_key { s with positions := [p] } L =
        ({ s with positions := [p] }, L)) ∧
    (∀ res : String, res ≠ "" → fetch p.ticker = .ok (some res) →
      check_settled fetch today week_key { s with positions := [p] } L =
        ({ s with
            total_pnl_cents := s.total_pnl_cents +
              (if res = p.side then (100 - p.price) * p.count
               else -(p.price * p.count)),
            positions := [] },
         record_pnl (if res = p.side then (100 - p.price) * p.count
           else -(p.price * p.count)) p.ticker today week_key L) ∧
      (alookup today (record_pnl (if res = p.side then (100 - p.price) * p.count
          else -(p.price * p.count)) p.ticker today week_key L).daily).map
          PnlBucket.pnl_cents =
        some (((alookup today L.daily).getD ⟨0, 0, 0, 0⟩).pnl_cents +
          (if res = p.side then (100 - p.price) * p.count
           else -(p.price * p.count))) ∧
      (alookup week_key (record_pnl (if res = p.side then (100 - p.price) * p.count
          else -(p.price * p.count)) p.ticker today week_key L).weeks).map
          PnlBucket.pnl_cents =
        some (((alookup week_key L.weeks).getD ⟨0, 0, 0, 0⟩).pnl_cents +
          (if res = p.side then (100 - p.price) * p.count
           else -(p.price * p.count)))) ∧
    (fetch p.ticker = .error () →
      check_settled fetch today week_key { s with positions := l1 ++ p :: l2 } L =
        (let r1 := check_settled fetch today week_key { s with positions := l1 } L
         let r2 := check_settled fetch today week_key
           { r1.1 with positions := l2 } r1.2
         ({ r2.1 with positions := r1.1.positions ++ p :: r2.1.positions }, r2.2))) := by
  refine ⟨fun hf => ?_, fun res hres hf => ⟨?_, ?_, ?_⟩, fun hf => ?_⟩
  · simp [check_settled, settle_step, hf]
  · simp [check_settled, settle_step, hf, hres]
  · rw [record_pnl, alookup_bump_bucket]
    simp
  · rw [record_pnl, alookup_bump_bucket]
    simp
  · simp only [check_settled]
    simp only [List.foldl_append, List.foldl_cons]
    rw [settle_fold_shift fetch today week_key l1 ([] : List Position)
      s.total_pnl_cents L]
    have hstep : settle_step fetch today week_key
        (([] : List Position) ++ (l1.foldl (settle_step fetch today week_key)
          ([], s.total_pnl_cents, L)).1,
         (l1.foldl (settle_step fetch today week_key)
          ([], s.total_pnl_cents, L)).2) p =
        ((l1.foldl (settle_step fetch today week_key)
          ([], s.total_pnl_cents, L)).1 ++ [p],
         (l1.foldl (settle_step fetch today week_key)
          ([], s.total_pnl_cents, L)).2) := by
      simp [settle_step, hf]
    rw [hstep]
    rw [settle_fold_shift fetch today week_key l2]
    simp

/-- Witness for C8 at the spec's scenario 5: a YES position at 40¢ × 5
settles to result "yes", a +300¢ win recorded in the state total and in
both ledger buckets. -/
theorem check_settled_spec_witness :
    check_settled (fun _ => .ok (some "yes")) "2026-02-14" "2026-W06"
      ⟨[⟨"KXHIGHTPHX-26FEB14-T95", "yes", 5, 40, "PHX", none, "",
         "2026-02-13T18:00:00+00:00", true⟩], 0, "", 0⟩ ⟨[], []⟩ =
      (⟨[], 0, "",
        0 + (if "yes" = "yes" then ((100 : ℤ) - 40) * 5 else -(40 * 5))⟩,
       record_pnl (if "yes" = "yes" then ((100 : ℤ) - 40) * 5 else -(40 * 5))
         "KXHIGHTPHX-26FEB14-T95" "2026-02-14" "2026-W06" ⟨[], []⟩) :=
  (((check_settled_spec (fun _ => .ok (some "yes")) "2026-02-14" "2026-W06"
      ⟨[⟨"KXHIGHTPHX-26FEB14-T95", "yes", 5, 40, "PHX", none, "",
         "2026-02-13T18:00:00+00:00", true⟩], 0, "", 0⟩ ⟨[], []⟩
      ⟨"KXHIGHTPHX-26FEB14-T95", "yes", 5, 40, "PHX", none, "",
         "2026-02-13T18:00:00+00:00", true⟩ [] []).2.1
    "yes" (by decide) rfl).1)

/- ────────────────────────────────────────────────────────────────────
   Forecast ensemble
   (src/weather_providers.py, WeatherEnsemble.get_ensemble_forecast)
   ──────────────────────────────────────────────────────────────────── -/

/-- The `details` dict returned alongside the ensemble mean. -/
structure EnsembleDetails where
  ensemble_forecast : ℚ
  individual_forecasts : List (String × ℚ)
  weights : List (String × ℚ)
  provider_count : ℕ
deriving Repr, DecidableEq

/-- The `(provider, city)` additive bias correction applied to a raw
forecast: `forecast - model_bias.get((provider.name, city_code), 0.0)`
when both a bias table and a city code are supplied. -/
def provider_forecast (model_bias : Option (List ((String × String) × ℚ)))
    (city_code : Option String) (name : String) (f0 : ℚ) : ℚ :=
  match model_bias, city_code with
  | some mb, some cc => f0 - (alookup (name, cc) mb).getD 0
  | _, _ => f0

/-- A provider's effective ensemble weight: base weight adjusted by
accuracy history, then multiplied by the caller's override when one is
given for this provider. -/
def provider_weight (now : ℚ) (accuracy_history : List (String × List (ℚ × ℚ)))
    (weight_overrides : Option (List (String × ℚ)))
    (name : String) (base_weight : ℚ) : ℚ :=
  let adjusted_weight := get_adjusted_weight now (alookup name accuracy_history)
    base_weight
  match weight_overrides with
  | some ov =>
    match alookup name ov with
    | some mult => adjusted_weight * mult
    | none => adjusted_weight
  | none => adjusted_weight

/-- The provider loop of `get_ensemble_forecast`: for every registered
provider `(name, base_weight, fetched)` whose fetch succeeded, apply the
`(provider, city)` bias correction, the accuracy adjustment and the
caller's weight override, collecting `(name, forecast, weight)` entries
in registration order.  `fetched` stands for
`provider.get_forecast_high(location, target_date)`. -/
def collect_forecasts (now : ℚ) (accuracy_history : List (String × List (ℚ × ℚ)))
    (model_bias : Option (List ((String × String) × ℚ))) (city_code : Option String)
    (weight_overrides : Option (List (String × ℚ))) :
    List (String × ℚ × Option ℚ) → List (String × ℚ × ℚ)
  | [] => []
  | (name, base_weight, fetched) :: rest =>
    let tail := collect_forecasts now accuracy_history model_bias city_code
      weight_overrides rest
    match fetched with
    | none => tail
    | some f0 =>
      (name, provider_forecast model_bias city_code name f0,
       provider_weight now accuracy_history weight_overrides name base_weight) :: tail

/-- `WeatherEnsemble.get_ensemble_forecast(location, target_date, ...)`:
weighted ensemble average over the providers that returned a value, or
`none` when no provider succeeded. -/
def get_ensemble_forecast (now : ℚ)
    (accuracy_history : List (String × List (ℚ × ℚ)))
    (model_bias : Option (List ((String × String) × ℚ))) (city_code : Option String)
    (weight_overrides : Option (List (String × ℚ)))
    (providers : List (String × ℚ × Option ℚ)) : Option (ℚ × EnsembleDetails) :=
  let entries := collect_forecasts now accuracy_history model_bias city_code
    weight_overrides providers
  if entries = [] then none
  else
    let total_weight := (entries.map fun e => e.2.2).sum
    let ensemble_forecast := (entries.map fun e => e.2.1 * e.2.2).sum / total_weight
    some (ensemble_forecast,
      { ensemble_forecast := ensemble_forecast,
        individual_forecasts := entries.map fun e => (e.1, e.2.1),
        weights := entries.map fun e => (e.1, e.2.2),
        provider_count := entries.length })

theorem collect_forecasts_nil_of_none (now : ℚ)
    (accuracy_history : List (String × List (ℚ × ℚ)))
    (model_bias : Option (List ((String × String) × ℚ))) (city_code : Option String)
    (weight_overrides : Option (List (String × ℚ)))
    (providers : List (String × ℚ × Option ℚ))
    (h : ∀ p ∈ providers, p.2.2 = none) :
    collect_forecasts now accuracy_history model_bias city_code weight_overrides
      providers = [] := by
  induction providers with
  | nil => rfl
  | cons p rest ih =>
    obtain ⟨name, bw, fc⟩ := p
    have h0 : fc = none := h _ (List.mem_cons_self _ _)
    subst h0
    simp only [collect_forecasts]
    exact ih fun q hq => h q (List.mem_cons_of_mem _ hq)

theorem get_adjusted_weight_pos (now : ℚ) (h : Option (List (ℚ × ℚ)))
    {base : ℚ} (hb : 0 < base) : 0 < get_adjusted_weight now h base := by
  cases h with
  | none => simpa [get_adjusted_weight] using hb
  | some hist =>
    by_cases h1 : hist.length < 5
    · simpa [get_adjusted_weight, h1] using hb
    · by_cases h2 : recentErrors now hist = []
      · simpa [get_adjusted_weight, h1, h2] using hb
      · have heq : get_adjusted_weight now (some hist) base =
            base * min 2 (max 0.25 (1 / max ((recentErrors now hist).sum /
              (recentErrors now hist).length) 0.5)) := by
          simp [get_adjusted_weight, h1, h2]
        rw [heq]
        refine mul_pos hb (lt_min (by norm_num) ?_)
        exact lt_of_lt_of_le (by norm_num) (le_max_left _ _)

theorem alookup_mem {κ α : Type} [DecidableEq κ] {k : κ} {v : α}
    {l : List (κ × α)} (h : alookup k l = some v) : (k, v) ∈ l := by
  induction l with
  | nil => simp [alookup] at h
  | cons kv tl ih =>
    obtain ⟨k1, v1⟩ := kv
    by_cases hk : k1 = k
    · subst hk
      have he : alookup k1 ((k1, v1) :: tl) = some v1 := by simp [alookup]
      rw [he] at h
      obtain rfl := Option.some_inj.mp h
      exact List.mem_cons_self _ _
    · simp only [alookup, if_neg hk] at h
      exact List.mem_cons_of_mem _ (ih h)

theorem provider_weight_pos (now : ℚ)
    (accuracy_history : List (String × List (ℚ × ℚ)))
    (weight_overrides : Option (List (String × ℚ)))
    (name : String) {base : ℚ} (hb : 0 < base)
    (hov : ∀ l, weight_overrides = some l → ∀ kv ∈ l, 0 < kv.2) :
    0 < provider_weight now accuracy_history weight_overrides name base := by
  have hadj : 0 < get_adjusted_weight now (alookup name accuracy_history) base :=
    get_adjusted_weight_pos now _ hb
  cases hwo : weight_overrides with
  | none => simpa [provider_weight] using hadj
  | some ov =>
    cases hal : alookup name ov with
    | none => simpa [provider_weight, hal] using hadj
    | some mult =>
      have hm : 0 < mult := hov ov hwo _ (alookup_mem hal)
      simpa [provider_weight, hal] using mul_pos hadj hm

theorem collect_forecasts_weight_pos (now : ℚ)
    (accuracy_history : List (String × List (ℚ × ℚ)))
    (model_bias : Option (List ((String × String) × ℚ))) (city_code : Option String)
    (weight_overrides : Option (List (String × ℚ)))
    (providers : List (String × ℚ × Option ℚ))
    (hbase : ∀ p ∈ providers, 0 < p.2.1)
    (hov : ∀ l, weight_overrides = some l → ∀ kv ∈ l, 0 < kv.2) :
    ∀ e ∈ collect_forecasts now accuracy_history model_bias city_code
      weight_overrides providers, 0 < e.2.2 := by
  induction providers with
  | nil => intro e he; simp [collect_forecasts] at he
  | cons p rest ih =>
    obtain ⟨name, bw, fc⟩ := p
    have hbw : 0 < bw := hbase _ (List.mem_cons_self _ _)
    have ihr := ih fun q hq => hbase q (List.mem_cons_of_mem _ hq)
    cases fc with
    | none =>
      intro e he
      simp only [collect_forecasts] at he
      exact ihr e he
    | some f0 =>
      intro e he
      simp only [collect_forecasts] at he
      rcases List.mem_cons.mp he with heq | hmem
      · subst heq
        exact provider_weight_pos now accuracy_history weight_overrides name hbw hov
      · exact ihr e hmem

theorem list_sum_pos_of_pos (l : List ℚ) (hpos : ∀ x ∈ l, 0 < x) (hne : l ≠ []) :
    0 < l.sum := by
  match l with
  | [] => exact absurd rfl hne
  | x :: tl =>
    have hx : 0 < x := hpos x (List.mem_cons_self _ _)
    have htl : 0 ≤ tl.sum :=
      List.sum_nonneg fun y hy => (hpos y (List.mem_cons_of_mem _ hy)).le
    simpa using add_pos_of_pos_of_nonneg hx htl

theorem weighted_sum_le (entries : List (String × ℚ × ℚ)) (c : ℚ)
    (hc : ∀ e ∈ entries, e.2.1 ≤ c) (hw : ∀ e ∈ entries, 0 < e.2.2) :
    (entries.map fun e => e.2.1 * e.2.2).sum ≤ c * (entries.map fun e => e.2.2).sum := by
  induction entries with
  | nil => simp
  | cons e rest ih =>
    have h1 : e.2.1 ≤ c := hc e (List.mem_cons_self _ _)
    have h2 : 0 < e.2.2 := hw e (List.mem_cons_self _ _)
    have ihr := ih (fun q hq => hc q (List.mem_cons_of_mem _ hq))
      (fun q hq => hw q (List.mem_cons_of_mem _ hq))
    simp only [List.map_cons, List.sum_cons]
    nlinarith

theorem le_weighted_sum (entries : List (String × ℚ × ℚ)) (c : ℚ)
    (hc : ∀ e ∈ entries, c ≤ e.2.1) (hw : ∀ e ∈ entries, 0 < e.2.2) :
    c * (entries.map fun e => e.2.2).sum ≤ (entries.map fun e => e.2.1 * e.2.2).sum := by
  induction entries with
  | nil => simp
  | cons e rest ih =>
    have h1 : c ≤ e.2.1 := hc e (List.mem_cons_self _ _)
    have h2 : 0 < e.2.2 := hw e (List.mem_cons_self _ _)
    have ihr := ih (fun q hq => hc q (List.mem_cons_of_mem _ hq))
      (fun q hq => hw q (List.mem_cons_of_mem _ hq))
    simp only [List.map_cons, List.sum_cons]
    nlinarith

/-- C9: with every base weight positive and every caller override
positive, a run in which no provider succeeds returns `none`; otherwise
the returned mean equals `Σ temp·weight / Σ weight` over the collected
(bias-corrected) providers, at least one provider is reported, and the
mean is bounded by every lower and upper bound of the individual
forecasts — in particular it lies within their `[min, max]` range. -/
theorem get_ensemble_forecast_spec (now : ℚ)
    (accuracy_history : List (String × List (ℚ × ℚ)))
    (model_bias : Option (List ((String × String) × ℚ))) (city_code : Option String)
    (weight_overrides : Option (List (String × ℚ)))
    (providers : List (String × ℚ × Option ℚ))
    (hbase : ∀ p ∈ providers, 0 < p.2.1)
    (hov : ∀ l, weight_overrides = some l → ∀ kv ∈ l, 0 < kv.2) :
    ((∀ p ∈ providers, p.2.2 = none) →
      get_ensemble_forecast now accuracy_history model_bias city_code
        weight_overrides providers = none) ∧
    (∀ (m : ℚ) (details : EnsembleDetails),
      get_ensemble_forecast now accuracy_history model_bias city_code
        weight_overrides providers = some (m, details) →
      details.ensemble_forecast = m ∧
      m = ((details.individual_forecasts.zip details.weights).map
            fun fw => fw.1.2 * fw.2.2).sum / (details.weights.map Prod.snd).sum ∧
      details.provider_count = details.individual_forecasts.length ∧
      1 ≤ details.provider_count ∧
      (∀ c, (∀ f ∈ details.individual_forecasts.map Prod.snd, f ≤ c) → m ≤ c) ∧
      (∀ c, (∀ f ∈ details.individual_forecasts.map Prod.snd, c ≤ f) → c ≤ m)) := by
  set entries := collect_forecasts now accuracy_history model_bias city_code
    weight_overrides providers with hdef
  constructor
  · intro hnone
    have h0 : entries = [] := collect_forecasts_nil_of_none _ _ _ _ _ _ hnone
    simp [get_ensemble_forecast, ← hdef, h0]
  · intro m details hres
    by_cases hne : entries = []
    · simp [get_ensemble_forecast, ← hdef, hne] at hres
    · have hw : ∀ e ∈ entries, 0 < e.2.2 :=
        collect_forecasts_weight_pos _ _ _ _ _ _ hbase hov
      have hW : 0 < (entries.map fun e => e.2.2).sum := by
        apply list_sum_pos_of_pos
        · intro x hx
          obtain ⟨e, he, hex⟩ := List.mem_map.mp hx
          exact hex ▸ hw e he
        · simpa using hne
      simp only [get_ensemble_forecast, ← hdef, if_neg hne, Option.some_inj] at hres
      rw [Prod.mk.injEq] at hres
      obtain ⟨hm, hdet⟩ := hres
      subst hdet
      refine ⟨hm, ?_, ?_, ?_, ?_, ?_⟩
      · have hzip : (((entries.map fun e => (e.1, e.2.1)).zip
            (entries.map fun e => (e.1, e.2.2))).map fun fw => fw.1.2 * fw.2.2) =
            entries.map fun e => e.2.1 * e.2.2 := by
          clear hm hne hW hw
          induction entries with
          | nil => rfl
          | cons e rest ihe => simpa using ihe
        simpa [hzip] using hm.symm
      · simp
      · simpa using Nat.one_le_iff_ne_zero.mpr
          (by simpa using hne : entries.length ≠ 0)
      · intro c hcb
        rw [← hm]
        rw [div_le_iff₀ hW]
        apply weighted_sum_le entries c _ hw
        intro e he
        exact hcb e.2.1 (List.mem_map.mpr ⟨(e.1, e.2.1),
          List.mem_map.mpr ⟨e, he, rfl⟩, rfl⟩)
      · intro c hcb
        rw [← hm]
        rw [le_div_iff₀ hW]
        apply le_weighted_sum entries c _ hw
        intro e he
        exact hcb e.2.1 (List.mem_map.mpr ⟨(e.1, e.2.1),
          List.mem_map.mpr ⟨e, he, rfl⟩, rfl⟩)

/-- Witness for C9: two providers at 70 °F and 74 °F with unit weights
give ensemble mean 72 °F, which the theorem bounds by the maximum
individual forecast 74 °F. -/
theorem get_ensemble_forecast_spec_witness : (72 : ℚ) ≤ 74 :=
  ((get_ensemble_forecast_spec 0 [] none none none
      [("NOAA", 1, some 70), ("OpenMeteo_GFS", 1, some 74)]
      (by intro p hp; fin_cases hp <;> norm_num)
      (by intro l hl; cases hl)).2 72
      ⟨72, [("NOAA", 70), ("OpenMeteo_GFS", 74)],
       [("NOAA", 1), ("OpenMeteo_GFS", 1)], 2⟩
      (by
        norm_num [get_ensemble_forecast, collect_forecasts, provider_forecast,
          provider_weight, get_adjusted_weight, alookup]
        intro h
        simp at h)).2.2.2.2.1 74
    (by intro f hf; fin_cases hf <;> norm_num)

/- ────────────────────────────────────────────────────────────────────
   Bayesian market blending (src/kalshi/probability.py,
   market_adjusted_fair)
   ──────────────────────────────────────────────────────────────────── -/

noncomputable section

/-- `logit(p) = log(p / (1 - p))`. -/
def logit (p : ℝ) : ℝ := Real.log (p / (1 - p))

/-- `inv_logit(x) = 1 / (1 + exp(-x))`, the logistic sigmoid σ. -/
def inv_logit (x : ℝ) : ℝ := 1 / (1 + Real.exp (-x))

/-- `market_adjusted_fair(model_p, market_p, model_weight)`: clamp both
probabilities into [0.02, 0.98] and blend in log-odds space. -/
def market_adjusted_fair (model_p market_p model_weight : ℝ) : ℝ :=
  inv_logit (model_weight * logit (max 0.02 (min 0.98 model_p)) +
    (1 - model_weight) * logit (max 0.02 (min 0.98 market_p)))

/-- Python 3 `round()` (banker's rounding, half to even) on a real. -/
def pyRound (x : ℝ) : ℤ :=
  if Int.fract x = 1 / 2 then (if Even ⌊x⌋ then ⌊x⌋ else ⌊x⌋ + 1) else round x

end

/- ────────────────────────────────────────────────────────────────────
   Scanner configuration (src/kalshi/config.py, paper vs live block)
   ──────────────────────────────────────────────────────────────────── -/

/-- The mode-dependent scanner thresholds.  `maxFairMarketRatio` embeds
the source constant MAX_FAIR_MARKET_RATIO. -/
structure Config where
  MIN_EDGE_CENTS : ℝ
  MIN_YES_PRICE : ℤ
  MIN_NO_PRICE : ℤ
  MIN_CONFIDENCE_SCORE : ℝ
  MODEL_WEIGHT : ℝ
  MAX_DISAGREEMENT_CENTS : ℤ
  maxFairMarketRatio : ℝ

/-- Paper-trading thresholds. -/
def paperConfig : Config := ⟨10, 5, 5, 0.5, 0.3, 40, 3.5⟩

/-- Live-trading thresholds. -/
def liveConfig : Config := ⟨15, 15, 15, 0.6, 0.3, 25, 3.0⟩

/-- `MAX_EDGE_CENTS = 60`, the edge sanity cap (mode independent). -/
def MAX_EDGE_CENTS : ℝ := 60

/- ────────────────────────────────────────────────────────────────────
   Side evaluators (src/kalshi/scanner.py)
   ──────────────────────────────────────────────────────────────────── -/

/-- One backtest JSONL entry, reduced to the fields the claims read
(`_bt` writes a long telemetry payload; the skip reasons are modelled as
plain tags instead of the formatted source strings). -/
structure BTEntry where
  ticker : String
  side : Option String
  price : Option ℤ
  action : String
  skip_reason : Option String
deriving Repr, DecidableEq

/-- Outcome of one side evaluation: `none` (Python `None`), the
`"skip_contract"` sentinel, or an opportunity dict. -/
inductive EvalResult where
  | none
  | skipContract
  | trade (o : Opp)

/-- `_evaluate_yes_side`: the YES filter cascade.  Returns the outcome
together with the backtest records written.  The telemetry-only
parameters of the source (`ensemble_details`, `days_ahead`, `city_std`,
`provider_spread`) are dropped: they only feed `_bt` payload fields. -/
noncomputable def evaluate_yes_side (cfg : Config) (ticker city : String)
    (yes_ask yes_bid : ℤ) (floor_s cap_s : Option ℝ) (strike_type : String)
    (forecast_temp confidence fair_p : ℝ) (model_fair_cents : ℤ)
    (half_spread : ℝ) (event_ticker : String) : EvalResult × List BTEntry :=
  if yes_ask ≤ 0 ∨ 95 ≤ yes_ask then (.none, [])
  else if yes_ask < cfg.MIN_YES_PRICE then
    (.none, [⟨ticker, some "yes", some yes_ask, "skip", some "yes_price_floor"⟩])
  else if cfg.MAX_DISAGREEMENT_CENTS < |model_fair_cents - yes_ask| then
    (.skipContract,
     [⟨ticker, some "yes", some yes_ask, "skip", some "model_disagreement"⟩])
  else if cfg.MAX_DISAGREEMENT_CENTS <
      |pyRound (market_adjusted_fair fair_p ((yes_ask : ℝ) / 100)
        cfg.MODEL_WEIGHT * 100) - yes_ask| then
    (.skipContract, [⟨ticker, some "yes", some yes_ask, "skip", some "disagreement"⟩])
  else if 0 < yes_ask ∧ cfg.maxFairMarketRatio <
      ((pyRound (market_adjusted_fair fair_p ((yes_ask : ℝ) / 100)
        cfg.MODEL_WEIGHT * 100) : ℝ)) / (yes_ask : ℝ) then
    (.skipContract, [⟨ticker, some "yes", some yes_ask, "skip", some "ratio"⟩])
  else if ((pyRound (market_adjusted_fair fair_p ((yes_ask : ℝ) / 100)
        cfg.MODEL_WEIGHT * 100) : ℝ) - (yes_ask : ℝ) - half_spread) * confidence <
      cfg.MIN_EDGE_CENTS then
    (.none, [⟨ticker, some "yes", some yes_ask, "skip", some "edge_low"⟩])
  else if MAX_EDGE_CENTS < ((pyRound (market_adjusted_fair fair_p ((yes_ask : ℝ) / 100)
        cfg.MODEL_WEIGHT * 100) : ℝ) - (yes_ask : ℝ) - half_spread) * confidence then
    (.none, [⟨ticker, some "yes", some yes_ask, "skip", some "edge_cap"⟩])
  else
    (.trade
      { city := city, ticker := ticker, event_ticker := event_ticker,
        side := "yes", price := yes_ask,
        fair := pyRound (market_adjusted_fair fair_p ((yes_ask : ℝ) / 100)
          cfg.MODEL_WEIGHT * 100),
        model_fair := model_fair_cents,
        raw_edge := (pyRound (market_adjusted_fair fair_p ((yes_ask : ℝ) / 100)
          cfg.MODEL_WEIGHT * 100) : ℝ) - (yes_ask : ℝ) - half_spread,
        adjusted_edge := ((pyRound (market_adjusted_fair fair_p ((yes_ask : ℝ) / 100)
          cfg.MODEL_WEIGHT * 100) : ℝ) - (yes_ask : ℝ) - half_spread) * confidence,
        confidence := confidence, volume := none, forecast := forecast_temp,
        floor := floor_s, cap := cap_s, target_date := none },
     [⟨ticker, some "yes", some yes_ask, "trade", none⟩])

/-- `_evaluate_no_side`: the NO filter cascade, using `yes_bid` as the
market-implied probability.  Every failure returns `None` (the NO side
has no `"skip_contract"` sentinel). -/
noncomputable def evaluate_no_side (cfg : Config) (ticker city : String)
    (yes_ask yes_bid : ℤ) (floor_s cap_s : Option ℝ) (strike_type : String)
    (forecast_temp confidence fair_p : ℝ) (model_fair_cents : ℤ)
    (half_spread : ℝ) (event_ticker : String) : EvalResult × List BTEntry :=
  if yes_bid ≤ 0 ∨ yes_bid ≤ 5 then (.none, [])
  else if 100 - yes_bid < cfg.MIN_NO_PRICE then
    (.none, [⟨ticker, some "no", some (100 - yes_bid), "skip", some "no_price_floor"⟩])
  else if cfg.MAX_DISAGREEMENT_CENTS <
      |(100 - model_fair_cents) - (100 - yes_bid)| then
    (.none,
     [⟨ticker, some "no", some (100 - yes_bid), "skip", some "model_disagreement"⟩])
  else if cfg.MAX_DISAGREEMENT_CENTS <
      |(100 - pyRound (market_adjusted_fair fair_p ((yes_bid : ℝ) / 100)
        cfg.MODEL_WEIGHT * 100)) - (100 - yes_bid)| then
    (.none, [⟨ticker, some "no", some (100 - yes_bid), "skip", some "disagreement"⟩])
  else if 0 < 100 - yes_bid ∧ cfg.maxFairMarketRatio <
      ((100 - pyRound (market_adjusted_fair fair_p ((yes_bid : ℝ) / 100)
        cfg.MODEL_WEIGHT * 100) : ℤ) : ℝ) / ((100 - yes_bid : ℤ) : ℝ) then
    (.none, [⟨ticker, some "no", some (100 - yes_bid), "skip", some "ratio"⟩])
  else if ((yes_bid : ℝ) - (pyRound (market_adjusted_fair fair_p ((yes_bid : ℝ) / 100)
        cfg.MODEL_WEIGHT * 100) : ℝ) - half_spread) * confidence <
      cfg.MIN_EDGE_CENTS then
    (.none, [⟨ticker, some "no", some (100 - yes_bid), "skip", some "edge_low"⟩])
  else if MAX_EDGE_CENTS < ((yes_bid : ℝ) -
      (pyRound (market_adjusted_fair fair_p ((yes_bid : ℝ) / 100)
        cfg.MODEL_WEIGHT * 100) : ℝ) - half_spread) * confidence then
    (.none, [⟨ticker, some "no", some (100 - yes_bid), "skip", some "edge_cap"⟩])
  else
    (.trade
      { city := city, ticker := ticker, event_ticker := event_ticker,
        side := "no", price := 100 - yes_bid,
        fair := 100 - pyRound (market_adjusted_fair fair_p ((yes_bid : ℝ) / 100)
          cfg.MODEL_WEIGHT * 100),
        model_fair := 100 - model_fair_cents,
        raw_edge := (yes_bid : ℝ) -
          (pyRound (market_adjusted_fair fair_p ((yes_bid : ℝ) / 100)
            cfg.MODEL_WEIGHT * 100) : ℝ) - half_spread,
        adjusted_edge := ((yes_bid : ℝ) -
          (pyRound (market_adjusted_fair fair_p ((yes_bid : ℝ) / 100)
            cfg.MODEL_WEIGHT * 100) : ℝ) - half_spread) * confidence,
        confidence := confidence, volume := none, forecast := forecast_temp,
        floor := floor_s, cap := cap_s, target_date := none },
     [⟨ticker, some "no", some (100 - yes_bid), "trade", none⟩])

/-- The YES/NO dispatch tail of `_scan_market` (source lines 433-465):
compute `model_fair_cents = round(fair_p·100)` and the half-spread,
evaluate the YES side, and evaluate the NO side unless the YES
evaluation returned the `"skip_contract"` sentinel.  The upstream
validity/volume/spread/proximity filters of `_scan_market` and the
`fair_probability` call producing `fair_p` happen before this point and
are modelled separately. -/
noncomputable def scan_market_dispatch (cfg : Config) (ticker city event_ticker : String)
    (target_date : String) (yes_ask yes_bid vol : ℤ) (floor_s cap_s : Option ℝ)
    (strike_type : String) (forecast_temp confidence fair_p : ℝ) :
    List Opp × List BTEntry :=
  match evaluate_yes_side cfg ticker city yes_ask yes_bid floor_s cap_s
    strike_type forecast_temp confidence fair_p (pyRound (fair_p * 100))
    (if 0 < yes_ask ∧ 0 < yes_bid then ((yes_ask : ℝ) - (yes_bid : ℝ)) / 2 else 0)
    event_ticker with
  | (.skipContract, yrec) => ([], yrec)
  | (yres, yrec) =>
    match evaluate_no_side cfg ticker city yes_ask yes_bid floor_s cap_s
      strike_type forecast_temp confidence fair_p (pyRound (fair_p * 100))
      (if 0 < yes_ask ∧ 0 < yes_bid then ((yes_ask : ℝ) - (yes_bid : ℝ)) / 2 else 0)
      event_ticker with
    | (nres, nrec) =>
      ((match yres with
        | .trade o => [{ o with volume := some vol, target_date := some target_date }]
        | _ => []) ++
       (match nres with
        | .trade o => [{ o with volume := some vol, target_date := some target_date }]
        | _ => []),
       yrec ++ nrec)

theorem evaluate_yes_side_trade (cfg : Config) (ticker city : String)
    (yes_ask yes_bid : ℤ) (floor_s cap_s : Option ℝ) (strike_type : String)
    (forecast_temp confidence fair_p : ℝ) (model_fair_cents : ℤ)
    (half_spread : ℝ) (event_ticker : String) (o : Opp) :
    (evaluate_yes_side cfg ticker city yes_ask yes_bid floor_s cap_s strike_type
      forecast_temp confidence fair_p model_fair_cents half_spread
      event_ticker).1 = .trade o →
    o.price = yes_ask ∧ 0 < yes_ask ∧ yes_ask < 95 := by
  unfold evaluate_yes_side
  split_ifs with h1 h2 h3 h4 h5 h6 h7 <;> intro h
  any_goals (simp at h ; done)
  all_goals
    dsimp only at h
    cases h
    push_neg at h1
    exact ⟨rfl, h1.1, h1.2⟩

theorem evaluate_no_side_trade (cfg : Config) (ticker city : String)
    (yes_ask yes_bid : ℤ) (floor_s cap_s : Option ℝ) (strike_type : String)
    (forecast_temp confidence fair_p : ℝ) (model_fair_cents : ℤ)
    (half_spread : ℝ) (event_ticker : String) (o : Opp) :
    (evaluate_no_side cfg ticker city yes_ask yes_bid floor_s cap_s strike_type
      forecast_temp confidence fair_p model_fair_cents half_spread
      event_ticker).1 = .trade o →
    o.price = 100 - yes_bid ∧ 5 < yes_bid := by
  unfold evaluate_no_side
  split_ifs with h1 h2 h3 h4 h5 h6 h7 <;> intro h
  any_goals (simp at h ; done)
  all_goals
    dsimp only at h
    cases h
    push_neg at h1
    exact ⟨rfl, h1.2⟩

/-- C10: every opportunity the dispatch emits has `price_cents ≤ 94`
(YES requires `0 < yes_ask < 95`, NO requires `yes_bid ≥ 6` so the NO
price `100 − yes_bid` is at most 94), and a market outside these bounds
produces neither an opportunity nor a skip record for that side. -/
theorem scan_market_price_bound_spec (cfg : Config)
    (ticker city event_ticker target_date : String) (yes_ask yes_bid vol : ℤ)
    (floor_s cap_s : Option ℝ) (strike_type : String)
    (forecast_temp confidence fair_p : ℝ) (model_fair_cents : ℤ)
    (half_spread : ℝ) :
    (∀ o ∈ (scan_market_dispatch cfg ticker city event_ticker target_date yes_ask
      yes_bid vol floor_s cap_s strike_type forecast_temp confidence fair_p).1,
      o.price ≤ 94) ∧
    (yes_ask ≤ 0 ∨ 95 ≤ yes_ask →
      evaluate_yes_side cfg ticker city yes_ask yes_bid floor_s cap_s strike_type
        forecast_temp confidence fair_p model_fair_cents half_spread event_ticker =
        (.none, [])) ∧
    (yes_bid ≤ 5 →
      evaluate_no_side cfg ticker city yes_ask yes_bid floor_s cap_s strike_type
        forecast_temp confidence fair_p model_fair_cents half_spread event_ticker =
        (.none, [])) := by
  refine ⟨?_, ?_, ?_⟩
  · intro o ho
    unfold scan_market_dispatch at ho
    rcases hE : evaluate_yes_side cfg ticker city yes_ask yes_bid floor_s cap_s
      strike_type forecast_temp confidence fair_p (pyRound (fair_p * 100))
      (if 0 < yes_ask ∧ 0 < yes_bid then ((yes_ask : ℝ) - (yes_bid : ℝ)) / 2 else 0)
      event_ticker with ⟨yres, yrec⟩
    rcases hN : evaluate_no_side cfg ticker city yes_ask yes_bid floor_s cap_s
      strike_type forecast_temp confidence fair_p (pyRound (fair_p * 100))
      (if 0 < yes_ask ∧ 0 < yes_bid then ((yes_ask : ℝ) - (yes_bid : ℝ)) / 2 else 0)
      event_ticker with ⟨nres, nrec⟩
    rw [hE, hN] at ho
    have hyes : ∀ o1 : Opp, yres = .trade o1 → o.price ≤ 94 → o.price ≤ 94 := by
      intro _ _ h
      exact h
    cases yres with
    | skipContract => simp at ho
    | none =>
      cases nres with
      | none => simp at ho
      | skipContract => simp at ho
      | trade o2 =>
        simp at ho
        subst ho
        have h2 := evaluate_no_side_trade cfg ticker city yes_ask yes_bid floor_s
          cap_s strike_type forecast_temp confidence fair_p (pyRound (fair_p * 100))
          (if 0 < yes_ask ∧ 0 < yes_bid then ((yes_ask : ℝ) - (yes_bid : ℝ)) / 2 else 0)
          event_ticker o2 (by rw [hN])
        show o2.price ≤ 94
        omega
    | trade o1 =>
      have h1 := evaluate_yes_side_trade cfg ticker city yes_ask yes_bid floor_s
        cap_s strike_type forecast_temp confidence fair_p (pyRound (fair_p * 100))
        (if 0 < yes_ask ∧ 0 < yes_bid then ((yes_ask : ℝ) - (yes_bid : ℝ)) / 2 else 0)
        event_ticker o1 (by rw [hE])
      cases nres with
      | none =>
        simp at ho
        subst ho
        show o1.price ≤ 94
        omega
      | skipContract =>
        simp at ho
        subst ho
        show o1.price ≤ 94
        omega
      | trade o2 =>
        have h2 := evaluate_no_side_trade cfg ticker city yes_ask yes_bid floor_s
          cap_s strike_type forecast_temp confidence fair_p (pyRound (fair_p * 100))
          (if 0 < yes_ask ∧ 0 < yes_bid then ((yes_ask : ℝ) - (yes_bid : ℝ)) / 2 else 0)
          event_ticker o2 (by rw [hN])
        simp at ho
        rcases ho with ho | ho <;> subst ho
        · show o1.price ≤ 94
          omega
        · show o2.price ≤ 94
          omega
  · intro hcond
    rw [evaluate_yes_side, if_pos hcond]
  · intro hcond
    rw [evaluate_no_side, if_pos (Or.inr hcond)]

/-- Witness for C10: a market quoted at `yes_ask = 97` is outside the YES
bounds, so the YES evaluator returns no opportunity and writes no
record. -/
theorem scan_market_price_bound_spec_witness :
    evaluate_yes_side paperConfig "T" "PHX" 97 40 none (some 95) "less"
      88 (1/2) (1/2) 50 0 "E" = (.none, []) :=
  (scan_market_price_bound_spec paperConfig "T" "PHX" "E" "2026-02-14" 97 40 10
    none (some 95) "less" 88 (1/2) (1/2) 50 0).2.1 (Or.inr (by norm_num))

/-- C1: within the YES-side bounds `0 < yes_ask < 95`, a YES price-floor
failure (`yes_ask < MIN_YES_PRICE`) writes one skip record and falls
through — the dispatch still evaluates the NO side and emits exactly its
result; whereas a pre-blend model-disagreement failure
(`|model_fair − yes_ask| > MAX_DISAGREEMENT_CENTS`) skips the entire
contract: the dispatch emits no opportunity for either side and never
runs the NO evaluator. -/
theorem scan_market_yes_failure_spec (cfg : Config)
    (ticker city event_ticker target_date : String) (yes_ask yes_bid vol : ℤ)
    (floor_s cap_s : Option ℝ) (strike_type : String)
    (forecast_temp confidence fair_p : ℝ)
    (h0 : 0 < yes_ask) (h95 : yes_ask < 95) :
    (yes_ask < cfg.MIN_YES_PRICE →
      evaluate_yes_side cfg ticker city yes_ask yes_bid floor_s cap_s strike_type
        forecast_temp confidence fair_p (pyRound (fair_p * 100))
        (if 0 < yes_ask ∧ 0 < yes_bid then ((yes_ask : ℝ) - (yes_bid : ℝ)) / 2 else 0)
        event_ticker =
        (.none, [⟨ticker, some "yes", some yes_ask, "skip", some "yes_price_floor"⟩]) ∧
      scan_market_dispatch cfg ticker city event_ticker target_date yes_ask yes_bid
        vol floor_s cap_s strike_type forecast_temp confidence fair_p =
        ((match (evaluate_no_side cfg ticker city yes_ask yes_bid floor_s cap_s
            strike_type forecast_temp confidence fair_p (pyRound (fair_p * 100))
            (if 0 < yes_ask ∧ 0 < yes_bid then ((yes_ask : ℝ) - (yes_bid : ℝ)) / 2
             else 0) event_ticker).1 with
          | .trade o => [{ o with volume := some vol, target_date := some target_date }]
          | _ => []),
         ⟨ticker, some "yes", some yes_ask, "skip", some "yes_price_floor"⟩ ::
           (evaluate_no_side cfg ticker city yes_ask yes_bid floor_s cap_s
            strike_type forecast_temp confidence fair_p (pyRound (fair_p * 100))
            (if 0 < yes_ask ∧ 0 < yes_bid then ((yes_ask : ℝ) - (yes_bid : ℝ)) / 2
             else 0) event_ticker).2)) ∧
    (cfg.MIN_YES_PRICE ≤ yes_ask →
      cfg.MAX_DISAGREEMENT_CENTS < |pyRound (fair_p * 100) - yes_ask| →
      evaluate_yes_side cfg ticker city yes_ask yes_bid floor_s cap_s strike_type
        forecast_temp confidence fair_p (pyRound (fair_p * 100))
        (if 0 < yes_ask ∧ 0 < yes_bid then ((yes_ask : ℝ) - (yes_bid : ℝ)) / 2 else 0)
        event_ticker =
        (.skipContract,
         [⟨ticker, some "yes", some yes_ask, "skip", some "model_disagreement"⟩]) ∧
      scan_market_dispatch cfg ticker city event_ticker target_date yes_ask yes_bid
        vol floor_s cap_s strike_type forecast_temp confidence fair_p =
        ([], [⟨ticker, some "yes", some yes_ask, "skip", some "model_disagreement"⟩])) := by
  have hguard : ¬(yes_ask ≤ 0 ∨ 95 ≤ yes_ask) :=
    not_or.mpr ⟨not_le.mpr h0, not_le.mpr h95⟩
  constructor
  · intro hfloor
    have hyes : evaluate_yes_side cfg ticker city yes_ask yes_bid floor_s cap_s
        strike_type forecast_temp confidence fair_p (pyRound (fair_p * 100))
        (if 0 < yes_ask ∧ 0 < yes_bid then ((yes_ask : ℝ) - (yes_bid : ℝ)) / 2 else 0)
        event_ticker =
        (.none, [⟨ticker, some "yes", some yes_ask, "skip", some "yes_price_floor"⟩]) := by
      rw [evaluate_yes_side, if_neg hguard, if_pos hfloor]
    refine ⟨hyes, ?_⟩
    unfold scan_market_dispatch
    rw [hyes]
    rcases hN : evaluate_no_side cfg ticker city yes_ask yes_bid floor_s cap_s
      strike_type forecast_temp confidence fair_p (pyRound (fair_p * 100))
      (if 0 < yes_ask ∧ 0 < yes_bid then ((yes_ask : ℝ) - (yes_bid : ℝ)) / 2 else 0)
      event_ticker with ⟨nres, nrec⟩
    cases nres <;> simp
  · intro hmin hdis
    have hyes : evaluate_yes_side cfg ticker city yes_ask yes_bid floor_s cap_s
        strike_type forecast_temp confidence fair_p (pyRound (fair_p * 100))
        (if 0 < yes_ask ∧ 0 < yes_bid then ((yes_ask : ℝ) - (yes_bid : ℝ)) / 2 else 0)
        event_ticker =
        (.skipContract,
         [⟨ticker, some "yes", some yes_ask, "skip", some "model_disagreement"⟩]) := by
      rw [evaluate_yes_side, if_neg hguard, if_neg (not_lt.mpr hmin), if_pos hdis]
    refine ⟨hyes, ?_⟩
    unfold scan_market_dispatch
    rw [hyes]

/-- Witness for C1's price-floor branch: in paper mode a market at
`yes_ask = 3¢` fails the 5¢ YES floor, records one skip, and the
dispatch result is exactly the NO-side evaluation. -/
theorem scan_market_yes_failure_spec_witness :
    evaluate_yes_side paperConfig "T" "PHX" 3 0 none (some 95) "less"
      88 (1/2) (1/2) (pyRound ((1/2 : ℝ) * 100))
      (if 0 < (3:ℤ) ∧ 0 < (0:ℤ) then (((3:ℤ) : ℝ) - ((0:ℤ) : ℝ)) / 2 else 0) "E" =
      (.none, [⟨"T", some "yes", some 3, "skip", some "yes_price_floor"⟩]) ∧
    scan_market_dispatch paperConfig "T" "PHX" "E" "2026-02-14" 3 0 10 none
      (some 95) "less" 88 (1/2) (1/2) =
      ((match (evaluate_no_side paperConfig "T" "PHX" 3 0 none (some 95) "less"
          88 (1/2) (1/2) (pyRound ((1/2 : ℝ) * 100))
          (if 0 < (3:ℤ) ∧ 0 < (0:ℤ) then (((3:ℤ) : ℝ) - ((0:ℤ) : ℝ)) / 2 else 0)
          "E").1 with
        | .trade o => [{ o with volume := some 10, target_date := some "2026-02-14" }]
        | _ => []),
       ⟨"T", some "yes", some 3, "skip", some "yes_price_floor"⟩ ::
         (evaluate_no_side paperConfig "T" "PHX" 3 0 none (some 95) "less"
          88 (1/2) (1/2) (pyRound ((1/2 : ℝ) * 100))
          (if 0 < (3:ℤ) ∧ 0 < (0:ℤ) then (((3:ℤ) : ℝ) - ((0:ℤ) : ℝ)) / 2 else 0)
          "E").2) :=
  (scan_market_yes_failure_spec paperConfig "T" "PHX" "E" "2026-02-14" 3 0 10 none
    (some 95) "less" 88 (1/2) (1/2) (by norm_num) (by norm_num)).1 (by decide)

theorem inv_logit_logit {p : ℝ} (h0 : 0 < p) (h1 : p < 1) :
    inv_logit (logit p) = p := by
  unfold inv_logit logit
  have h1p : 0 < 1 - p := by linarith
  rw [Real.exp_neg, Real.exp_log (div_pos h0 h1p)]
  rw [inv_div]
  field_simp

theorem clamp_mem (x : ℝ) :
    0 < max 0.02 (min 0.98 x) ∧ max 0.02 (min 0.98 x) < 1 := by
  constructor
  · exact lt_of_lt_of_le (by norm_num) (le_max_left _ _)
  · exact lt_of_le_of_lt (max_le (by norm_num) (min_le_left _ _)) (by norm_num)

/-- C7: the blend first clamps both probabilities into [0.02, 0.98] and
returns `σ(w·logit(p_m) + (1−w)·logit(p_k))`; `σ(logit p) = p` on (0,1),
so weight 1 returns the clamped model probability and weight 0 the
clamped market probability. -/
theorem market_adjusted_fair_spec (p pm pk w : ℝ) (h0 : 0 < p) (h1 : p < 1) :
    inv_logit (logit p) = p ∧
    market_adjusted_fair pm pk w =
      inv_logit (w * logit (max 0.02 (min 0.98 pm)) +
        (1 - w) * logit (max 0.02 (min 0.98 pk))) ∧
    market_adjusted_fair pm pk 1 = max 0.02 (min 0.98 pm) ∧
    market_adjusted_fair pm pk 0 = max 0.02 (min 0.98 pk) := by
  refine ⟨inv_logit_logit h0 h1, rfl, ?_, ?_⟩
  · have hm := clamp_mem pm
    unfold market_adjusted_fair
    rw [show (1 : ℝ) * logit (max 0.02 (min 0.98 pm)) +
        (1 - 1) * logit (max 0.02 (min 0.98 pk)) =
        logit (max 0.02 (min 0.98 pm)) by ring]
    exact inv_logit_logit hm.1 hm.2
  · have hk := clamp_mem pk
    unfold market_adjusted_fair
    rw [show (0 : ℝ) * logit (max 0.02 (min 0.98 pm)) +
        (1 - 0) * logit (max 0.02 (min 0.98 pk)) =
        logit (max 0.02 (min 0.98 pk)) by ring]
    exact inv_logit_logit hk.1 hk.2

/-- Witness for C7 at p = 1/2, pm = 0.6, pk = 0.4, w = 0.3. -/
theorem market_adjusted_fair_spec_witness :
    inv_logit (logit (1/2)) = (1/2 : ℝ) ∧
    market_adjusted_fair 0.6 0.4 0.3 =
      inv_logit (0.3 * logit (max 0.02 (min 0.98 0.6)) +
        (1 - 0.3) * logit (max 0.02 (min 0.98 0.4))) ∧
    market_adjusted_fair 0.6 0.4 1 = max 0.02 (min 0.98 0.6) ∧
    market_adjusted_fair 0.6 0.4 0 = max 0.02 (min 0.98 0.4) :=
  market_adjusted_fair_spec (1/2) 0.6 0.4 0.3 (by norm_num) (by norm_num)

/- ────────────────────────────────────────────────────────────────────
   The standard normal CDF (src/kalshi/probability.py, normal_cdf),
   built on the error function of `math.erf`
   ──────────────────────────────────────────────────────────────────── -/

section Gaussian

open MeasureTheory Real

theorem gauss_cont : Continuous fun t : ℝ => Real.exp (-t^2) := by
  continuity

theorem gauss_ii (a b : ℝ) :
    IntervalIntegrable (fun t : ℝ => Real.exp (-t^2)) volume a b :=
  gauss_cont.intervalIntegrable a b

theorem gauss_integrable : Integrable fun t : ℝ => Real.exp (-t^2) := by
  simpa using integrable_exp_neg_mul_sq (one_pos)

theorem gauss_Ioi : ∫ t in Set.Ioi (0:ℝ), Real.exp (-t^2) = Real.sqrt π / 2 := by
  simpa using integral_gaussian_Ioi 1

theorem gauss_total : ∫ t : ℝ, Real.exp (-t^2) = Real.sqrt π := by
  simpa using integral_gaussian 1

theorem gauss_Iic : ∫ t in Set.Iic (0:ℝ), Real.exp (-t^2) = Real.sqrt π / 2 := by
  have h := intervalIntegral.integral_Iic_add_Ioi (b := (0:ℝ))
    gauss_integrable.integrableOn gauss_integrable.integrableOn
  rw [gauss_Ioi, gauss_total] at h
  linarith

theorem gaussInt_strict_mono {a b : ℝ} (h : a < b) :
    (∫ t in (0:ℝ)..a, Real.exp (-t^2)) < ∫ t in (0:ℝ)..b, Real.exp (-t^2) := by
  have hadd : (∫ t in (0:ℝ)..a, Real.exp (-t^2)) + ∫ t in a..b, Real.exp (-t^2) =
      ∫ t in (0:ℝ)..b, Real.exp (-t^2) :=
    intervalIntegral.integral_add_adjacent_intervals (gauss_ii 0 a) (gauss_ii a b)
  have hpos : 0 < ∫ t in a..b, Real.exp (-t^2) :=
    intervalIntegral.intervalIntegral_pos_of_pos (gauss_ii a b)
      (fun x => Real.exp_pos _) h
  linarith

theorem gaussInt_mono {a b : ℝ} (h : a ≤ b) :
    (∫ t in (0:ℝ)..a, Real.exp (-t^2)) ≤ ∫ t in (0:ℝ)..b, Real.exp (-t^2) := by
  rcases eq_or_lt_of_le h with rfl | hlt
  · exact le_refl _
  · exact (gaussInt_strict_mono hlt).le

theorem gaussInt_le (x : ℝ) :
    (∫ t in (0:ℝ)..x, Real.exp (-t^2)) ≤ Real.sqrt π / 2 := by
  rcases le_or_lt x 0 with hx | hx
  · have h0 : (∫ t in (0:ℝ)..x, Real.exp (-t^2)) ≤ ∫ t in (0:ℝ)..(0:ℝ), Real.exp (-t^2) :=
      gaussInt_mono hx
    rw [intervalIntegral.integral_same] at h0
    have : (0:ℝ) ≤ Real.sqrt π / 2 := by positivity
    linarith
  · rw [intervalIntegral.integral_of_le hx.le, ← gauss_Ioi]
    apply MeasureTheory.setIntegral_mono_set gauss_integrable.integrableOn
    · exact Filter.Eventually.of_forall fun t => (Real.exp_pos _).le
    · exact Filter.Eventually.of_forall Set.Ioc_subset_Ioi_self

theorem gaussInt_ge (x : ℝ) :
    -(Real.sqrt π / 2) ≤ ∫ t in (0:ℝ)..x, Real.exp (-t^2) := by
  rcases le_or_lt 0 x with hx | hx
  · have h0 : (∫ t in (0:ℝ)..(0:ℝ), Real.exp (-t^2)) ≤ ∫ t in (0:ℝ)..x, Real.exp (-t^2) :=
      gaussInt_mono hx
    rw [intervalIntegral.integral_same] at h0
    have : (0:ℝ) ≤ Real.sqrt π / 2 := by positivity
    linarith
  · rw [intervalIntegral.integral_symm]
    have hle : (∫ t in x..(0:ℝ), Real.exp (-t^2)) ≤ Real.sqrt π / 2 := by
      rw [intervalIntegral.integral_of_le hx.le, ← gauss_Iic]
      apply MeasureTheory.setIntegral_mono_set gauss_integrable.integrableOn
      · exact Filter.Eventually.of_forall fun t => (Real.exp_pos _).le
      · exact Filter.Eventually.of_forall Set.Ioc_subset_Iic_self
    linarith

noncomputable def erf (x : ℝ) : ℝ :=
  2 / Real.sqrt π * ∫ t in (0:ℝ)..x, Real.exp (-t^2)

noncomputable def normal_cdf (x : ℝ) : ℝ := 0.5 * (1 + erf (x / Real.sqrt 2))

theorem erf_zero : erf 0 = 0 := by
  simp [erf]

theorem erf_le_one (x : ℝ) : erf x ≤ 1 := by
  have hs : (0:ℝ) < Real.sqrt π := Real.sqrt_pos.mpr Real.pi_pos
  have h := gaussInt_le x
  calc 2 / Real.sqrt π * ∫ t in (0:ℝ)..x, Real.exp (-t^2)
      ≤ 2 / Real.sqrt π * (Real.sqrt π / 2) := by
        apply mul_le_mul_of_nonneg_left h (by positivity)
    _ = 1 := by field_simp
 
theorem neg_one_le_erf (x : ℝ) : -1 ≤ erf x := by
  have hs : (0:ℝ) < Real.sqrt π := Real.sqrt_pos.mpr Real.pi_pos
  have h := gaussInt_ge x
  have : 2 / Real.sqrt π * (-(Real.sqrt π / 2)) ≤
      2 / Real.sqrt π * ∫ t in (0:ℝ)..x, Real.exp (-t^2) :=
    mul_le_mul_of_nonneg_left h (by positivity)
  calc (-1 : ℝ) = 2 / Real.sqrt π * (-(Real.sqrt π / 2)) := by
        field_simp
        ring
    _ ≤ _ := this

theorem erf_strict_mono {a b : ℝ} (h : a < b) : erf a < erf b := by
  have hs : (0:ℝ) < 2 / Real.sqrt π := by
    have : (0:ℝ) < Real.sqrt π := Real.sqrt_pos.mpr Real.pi_pos
    positivity
  exact mul_lt_mul_of_pos_left (gaussInt_strict_mono h) hs

theorem normal_cdf_nonneg (x : ℝ) : 0 ≤ normal_cdf x := by
  have := neg_one_le_erf (x / Real.sqrt 2)
  unfold normal_cdf
  linarith

theorem normal_cdf_le_one (x : ℝ) : normal_cdf x ≤ 1 := by
  have := erf_le_one (x / Real.sqrt 2)
  unfold normal_cdf
  linarith

theorem normal_cdf_zero : normal_cdf 0 = 1/2 := by
  unfold normal_cdf
  rw [zero_div, erf_zero]
  norm_num

theorem normal_cdf_strict_mono {a b : ℝ} (h : a < b) :
    normal_cdf a < normal_cdf b := by
  have hs : (0:ℝ) < Real.sqrt 2 := Real.sqrt_pos.mpr (by norm_num)
  have h2 : a / Real.sqrt 2 < b / Real.sqrt 2 :=
    div_lt_div_of_pos_right h hs
  have h3 := erf_strict_mono h2
  unfold normal_cdf
  linarith

theorem normal_cdf_mono {a b : ℝ} (h : a ≤ b) : normal_cdf a ≤ normal_cdf b := by
  rcases eq_or_lt_of_le h with rfl | hlt
  · exact le_refl _
  · exact (normal_cdf_strict_mono hlt).le

end Gaussian

/- ────────────────────────────────────────────────────────────────────
   Confidence scoring (src/kalshi/probability.py,
   calculate_confidence_score)
   ──────────────────────────────────────────────────────────────────── -/

/-- The slice of the ensemble-details dict the probability engine reads:
`provider_count` and the values of `individual_forecasts` (here real
numbers, as the engine computes in floats). -/
structure ProbDetails where
  provider_count : ℕ
  individual_forecasts : List ℝ

/-- `calculate_confidence_score(ensemble_details, forecast_temp, std_dev)`:
0 below the minimum provider count, 0.7 for a single provider, else
`clamp(0.7·agreement + 0.3·provider_share, 0, 1)` where the agreement
uses the standard deviation (denominator n) of the forecasts.
`forecast_temp` and `std_dev` are accepted and unused, as in the
source. -/
noncomputable def calculate_confidence_score (ensemble_details : Option ProbDetails)
    (forecast_temp std_dev : ℝ) : ℝ :=
  match ensemble_details with
  | none => 0
  | some d =>
    if d.provider_count < MIN_PROVIDER_COUNT then 0
    else if d.individual_forecasts.length < 2 then 0.7
    else
      min 1 (max 0
        (max 0.5 (1 - Real.sqrt ((d.individual_forecasts.map
            (fun f => (f - d.individual_forecasts.sum /
              d.individual_forecasts.length) ^ 2)).sum /
            d.individual_forecasts.length) / 5) * 0.7 +
         min 1 ((d.individual_forecasts.length : ℝ) / 3) * 0.3))

theorem confidence_score_mem (ed : Option ProbDetails) (t σd : ℝ) :
    0 ≤ calculate_confidence_score ed t σd ∧
    calculate_confidence_score ed t σd ≤ 1 := by
  cases ed with
  | none => simp [calculate_confidence_score]
  | some d =>
    simp only [calculate_confidence_score]
    split_ifs with h1 h2
    · norm_num
    · norm_num
    · exact ⟨le_min (by norm_num) (le_max_left 0 _), min_le_left _ _⟩

/-- C6: with consistent details (`provider_count` = number of individual
forecasts, as `get_ensemble_forecast` constructs them), the confidence
score is 0 for zero providers, exactly 0.7 for one provider, and for
n ≥ 2 equals `clamp(0.7·max(0.5, 1 − σ/5) + 0.3·min(1, n/3), 0, 1)`
with `σ = √(Σ(f − mean)²/n)`; it always lies in [0, 1]. -/
theorem calculate_confidence_score_spec (d : ProbDetails) (t σd : ℝ)
    (hc : d.provider_count = d.individual_forecasts.length) :
    (d.individual_forecasts.length = 0 →
      calculate_confidence_score (some d) t σd = 0) ∧
    (d.individual_forecasts.length = 1 →
      calculate_confidence_score (some d) t σd = 0.7) ∧
    (2 ≤ d.individual_forecasts.length →
      calculate_confidence_score (some d) t σd =
        min 1 (max 0
          (max 0.5 (1 - Real.sqrt ((d.individual_forecasts.map
              (fun f => (f - d.individual_forecasts.sum /
                d.individual_forecasts.length) ^ 2)).sum /
              d.individual_forecasts.length) / 5) * 0.7 +
           min 1 ((d.individual_forecasts.length : ℝ) / 3) * 0.3))) ∧
    0 ≤ calculate_confidence_score (some d) t σd ∧
    calculate_confidence_score (some d) t σd ≤ 1 := by
  refine ⟨fun h0 => ?_, fun h1 => ?_, fun h2 => ?_,
    (confidence_score_mem (some d) t σd).1, (confidence_score_mem (some d) t σd).2⟩
  · have : d.provider_count < MIN_PROVIDER_COUNT := by
      rw [hc, h0]
      norm_num [MIN_PROVIDER_COUNT]
    simp [calculate_confidence_score, this]
  · have hpc : ¬ d.provider_count < MIN_PROVIDER_COUNT := by
      rw [hc, h1]
      norm_num [MIN_PROVIDER_COUNT]
    have hlen : d.individual_forecasts.length < 2 := by omega
    simp [calculate_confidence_score, hpc, hlen]
  · have hpc : ¬ d.provider_count < MIN_PROVIDER_COUNT := by
      rw [hc]
      unfold MIN_PROVIDER_COUNT
      omega
    have hlen : ¬ d.individual_forecasts.length < 2 := by omega
    simp [calculate_confidence_score, hpc, hlen]

/-- Witness for C6: two providers at 70 °F and 74 °F give
σ = √4 = 2, agreement 0.6, share 2/3, score 0.62. -/
theorem calculate_confidence_score_spec_witness :
    calculate_confidence_score (some ⟨2, [70, 74]⟩) 72 1 = 0.62 := by
  have h := (calculate_confidence_score_spec ⟨2, [70, 74]⟩ 72 1 rfl).2.2.1
    (by norm_num)
  rw [h]
  norm_num
  rw [show (4:ℝ) = 2 ^ 2 by norm_num, Real.sqrt_sq (by norm_num : (0:ℝ) ≤ 2)]
  norm_num [min_def, max_def]

/- ────────────────────────────────────────────────────────────────────
   Fair probability (src/kalshi/probability.py, fair_probability),
   with the city × season dispersion table of config.py
   ──────────────────────────────────────────────────────────────────── -/

def FORECAST_STD_DEV : ℝ := 1.1

/-- `get_season(date)` (config.py), on the month number. -/
def get_season (month : ℕ) : String :=
  if month = 12 ∨ month = 1 ∨ month = 2 then "winter"
  else if month = 3 ∨ month = 4 ∨ month = 5 then "spring"
  else if month = 6 ∨ month = 7 ∨ month = 8 then "summer"
  else "fall"

/-- The `CITY_STD_DEV` table (config.py). -/
def CITY_STD_DEV : List (String × List (String × ℝ)) :=
  [("PHX", [("winter", 0.9), ("spring", 1.1), ("summer", 0.8), ("fall", 0.9)]),
   ("SFO", [("winter", 1.3), ("spring", 1.5), ("summer", 1.1), ("fall", 1.3)]),
   ("SEA", [("winter", 1.6), ("spring", 1.5), ("summer", 0.9), ("fall", 1.5)]),
   ("DC", [("winter", 1.5), ("spring", 1.3), ("summer", 1.1), ("fall", 1.3)]),
   ("HOU", [("winter", 1.3), ("spring", 1.1), ("summer", 0.9), ("fall", 1.1)]),
   ("NOLA", [("winter", 1.3), ("spring", 1.1), ("summer", 0.9), ("fall", 1.1)]),
   ("DAL", [("winter", 1.5), ("spring", 1.3), ("summer", 0.9), ("fall", 1.3)]),
   ("BOS", [("winter", 1.5), ("spring", 1.3), ("summer", 1.1), ("fall", 1.3)]),
   ("OKC", [("winter", 1.6), ("spring", 1.5), ("summer", 1.1), ("fall", 1.5)]),
   ("ATL", [("winter", 1.3), ("spring", 1.1), ("summer", 0.9), ("fall", 1.1)]),
   ("MIN", [("winter", 2.0), ("spring", 1.6), ("summer", 1.1), ("fall", 1.5)])]

/-- `get_city_std_dev(city, target_date)` (config.py). -/
def get_city_std_dev (city : String) (month : ℕ) : ℝ :=
  ((alookup city CITY_STD_DEV).bind
    (fun m => alookup (get_season month) m)).getD FORECAST_STD_DEV

/-- The lead-time decay factor of `fair_probability`:
same day 0.5, next day 0.75, then `1 + 0.35·(d − 1)`. -/
def lead_time_decay (days_ahead : ℕ) : ℝ :=
  if days_ahead = 0 then 0.5
  else if days_ahead = 1 then 0.75
  else 1 + 0.35 * ((days_ahead : ℝ) - 1)

/-- The adjusted dispersion `σ' = σ · (1.2 − 0.2·confidence) · decay`
computed inside `fair_probability` (before the non-positive fallback). -/
noncomputable def adjusted_std_of (forecast_temp : ℝ)
    (ensemble_details : Option ProbDetails) (std : ℝ) (days_ahead : ℕ) : ℝ :=
  std * (1.2 - 0.2 * calculate_confidence_score ensemble_details forecast_temp std) *
    lead_time_decay days_ahead

/-- `fair_probability(forecast_temp, ensemble_details, floor_strike,
cap_strike, city, target_date, std, days_ahead, strike_type)`.
`target_date` is reduced to its month (all `get_city_std_dev` reads).
A `None` strike used by the selected branch is a Python `TypeError`,
modelled as `none`; note the Python-falsy test `if not forecast_temp`
sends a forecast of exactly 0 °F to the missing-forecast default 0.5. -/
noncomputable def fair_probability (forecast_temp : ℝ)
    (ensemble_details : Option ProbDetails) (floor_strike cap_strike : Option ℝ)
    (city : Option String) (target_month : Option ℕ) (std : ℝ)
    (days_ahead : ℕ) (strike_type : String) : Option ℝ :=
  if forecast_temp = 0 then some 0.5
  else
    let std := match city, target_month with
      | some c, some m => get_city_std_dev c m
      | _, _ => std
    let adjusted_std0 := adjusted_std_of forecast_temp ensemble_details std days_ahead
    let adjusted_std := if adjusted_std0 ≤ 0 then 1 else adjusted_std0
    if strike_type = "less" then
      cap_strike.map fun cap => normal_cdf ((cap - forecast_temp) / adjusted_std)
    else if strike_type = "greater" then
      floor_strike.map fun fl => 1 - normal_cdf ((fl - forecast_temp) / adjusted_std)
    else if strike_type = "between" then
      match floor_strike, cap_strike with
      | some fl, some cap =>
        some (normal_cdf ((cap - forecast_temp) / adjusted_std) -
          normal_cdf ((fl - forecast_temp) / adjusted_std))
      | _, _ => none
    else some 0.5

theorem lead_time_decay_pos (d : ℕ) : 0 < lead_time_decay d := by
  unfold lead_time_decay
  split_ifs with h0 h1
  · norm_num
  · norm_num
  · have h2 : 2 ≤ d := by omega
    have : (2 : ℝ) ≤ (d : ℝ) := by exact_mod_cast h2
    nlinarith

theorem adjusted_std_of_pos (t : ℝ) (ed : Option ProbDetails) {std : ℝ}
    (hstd : 0 < std) (d : ℕ) : 0 < adjusted_std_of t ed std d := by
  have hc := confidence_score_mem ed t std
  have hm : (0 : ℝ) < 1.2 - 0.2 * calculate_confidence_score ed t std := by
    nlinarith [hc.1, hc.2]
  exact mul_pos (mul_pos hstd hm) (lead_time_decay_pos d)

/-- C4 amended: for every NONZERO forecast μ and positive σ, the fair
probability uses lead factors 0.5 / 0.75 / `1 + 0.35·(d−1)`, scales σ by
`(1.2 − 0.2·confidence)·lead_factor`, and returns `Φ((cap−μ)/σ')` for
"less", `1 − Φ((floor−μ)/σ')` for "greater" and
`Φ((cap−μ)/σ') − Φ((floor−μ)/σ')` for "between"; the result lies in
[0, 1] for "less", "greater" and unrecognized strike types, and for
"between" it is at most 1, and at least 0 whenever floor ≤ cap.  (At
μ = 0 the code takes the Python-falsy missing-forecast branch and
returns 0.5; for "between" with floor > cap the result can be
negative — see the counterexample.) -/
theorem fair_probability_spec (μ : ℝ) (details : Option ProbDetails)
    (fl cap : Option ℝ) (std : ℝ) (d : ℕ) (st : String)
    (hμ : μ ≠ 0) (hstd : 0 < std) :
    lead_time_decay 0 = 0.5 ∧ lead_time_decay 1 = 0.75 ∧
    (2 ≤ d → lead_time_decay d = 1 + 0.35 * ((d : ℝ) - 1)) ∧
    (st = "less" →
      fair_probability μ details fl cap none none std d st =
        cap.map fun c => normal_cdf ((c - μ) / adjusted_std_of μ details std d)) ∧
    (st = "greater" →
      fair_probability μ details fl cap none none std d st =
        fl.map fun f => 1 - normal_cdf ((f - μ) / adjusted_std_of μ details std d)) ∧
    (st = "between" → ∀ f c, fl = some f → cap = some c →
      fair_probability μ details fl cap none none std d st =
        some (normal_cdf ((c - μ) / adjusted_std_of μ details std d) -
          normal_cdf ((f - μ) / adjusted_std_of μ details std d)) ∧
      normal_cdf ((c - μ) / adjusted_std_of μ details std d) -
        normal_cdf ((f - μ) / adjusted_std_of μ details std d) ≤ 1 ∧
      (f ≤ c → 0 ≤ normal_cdf ((c - μ) / adjusted_std_of μ details std d) -
        normal_cdf ((f - μ) / adjusted_std_of μ details std d))) ∧
    (st ≠ "between" → ∀ r,
      fair_probability μ details fl cap none none std d st = some r →
      0 ≤ r ∧ r ≤ 1) := by
  have hσ := adjusted_std_of_pos μ details hstd d
  have hred : ∀ st' : String, fair_probability μ details fl cap none none std d st' =
      (if st' = "less" then
        cap.map fun c => normal_cdf ((c - μ) / adjusted_std_of μ details std d)
      else if st' = "greater" then
        fl.map fun f => 1 - normal_cdf ((f - μ) / adjusted_std_of μ details std d)
      else if st' = "between" then
        match fl, cap with
        | some f, some c =>
          some (normal_cdf ((c - μ) / adjusted_std_of μ details std d) -
            normal_cdf ((f - μ) / adjusted_std_of μ details std d))
        | _, _ => none
      else some 0.5) := by
    intro st'
    simp only [fair_probability, if_neg hμ]
    rw [if_neg (not_le.mpr hσ)]
  refine ⟨rfl, rfl, fun h2 => ?_, fun hst => ?_, fun hst => ?_,
    fun hst f c hf hc => ?_, fun hst r hr => ?_⟩
  · unfold lead_time_decay
    rw [if_neg (by omega), if_neg (by omega)]
  · subst hst
    rw [hred, if_pos rfl]
  · subst hst
    rw [hred, if_neg (by decide), if_pos rfl]
  · subst hst
    subst hf
    subst hc
    rw [hred, if_neg (by decide), if_neg (by decide), if_pos rfl]
    refine ⟨rfl, ?_, fun hfc => ?_⟩
    · have h1 := normal_cdf_le_one ((c - μ) / adjusted_std_of μ details std d)
      have h2 := normal_cdf_nonneg ((f - μ) / adjusted_std_of μ details std d)
      linarith
    · have hsub : f - μ ≤ c - μ := by linarith
      have hz : (f - μ) / adjusted_std_of μ details std d ≤
          (c - μ) / adjusted_std_of μ details std d :=
        (div_le_div_iff_of_pos_right hσ).mpr hsub
      have := normal_cdf_mono hz
      linarith
  · rw [hred] at hr
    by_cases hless : st = "less"
    · rw [if_pos hless] at hr
      cases cap with
      | none => exact absurd hr (by simp)
      | some c =>
        rw [Option.map_some'] at hr
        rw [Option.some_inj] at hr
        subst hr
        exact ⟨normal_cdf_nonneg _, normal_cdf_le_one _⟩
    · rw [if_neg hless] at hr
      by_cases hgr : st = "greater"
      · rw [if_pos hgr] at hr
        cases fl with
        | none => exact absurd hr (by simp)
        | some f =>
          rw [Option.map_some'] at hr
          rw [Option.some_inj] at hr
          subst hr
          have h1 := normal_cdf_nonneg ((f - μ) / adjusted_std_of μ details std d)
          have h2 := normal_cdf_le_one ((f - μ) / adjusted_std_of μ details std d)
          constructor <;> linarith
      · rw [if_neg hgr, if_neg hst] at hr
        rw [Option.some_inj] at hr
        subst hr
        norm_num

/-- C4 counterexample: (i) at a forecast of exactly 0 °F the code
returns 0.5 although the claimed CDF value for a "less" contract with
cap 10 is strictly above 0.5; (ii) for a "between" contract with
floor 10 > cap 0 the returned value is negative, outside [0, 1]. -/
theorem fair_probability_counterexample :
    fair_probability 0 none none (some 10) none none 1 1 "less" = some 0.5 ∧
    (0.5 : ℝ) < normal_cdf ((10 - 0) / adjusted_std_of 0 none 1 1) ∧
    fair_probability 5 none (some 10) (some 0) none none 1 1 "between" =
      some (normal_cdf ((0 - 5) / adjusted_std_of 5 none 1 1) -
        normal_cdf ((10 - 5) / adjusted_std_of 5 none 1 1)) ∧
    normal_cdf ((0 - 5) / adjusted_std_of 5 none 1 1) -
      normal_cdf ((10 - 5) / adjusted_std_of 5 none 1 1) < 0 := by
  have hstd : adjusted_std_of 0 none 1 1 = 0.9 := by
    unfold adjusted_std_of calculate_confidence_score lead_time_decay
    norm_num
  have hstd5 : adjusted_std_of 5 none 1 1 = 0.9 := by
    unfold adjusted_std_of calculate_confidence_score lead_time_decay
    norm_num
  refine ⟨?_, ?_, ?_, ?_⟩
  · simp [fair_probability]
  · rw [hstd]
    have h0 : normal_cdf 0 < normal_cdf ((10 - 0) / 0.9) :=
      normal_cdf_strict_mono (by norm_num)
    rw [normal_cdf_zero] at h0
    linarith
  · have hσ : (0:ℝ) < adjusted_std_of 5 none 1 1 := by
      rw [hstd5]
      norm_num
    simp only [fair_probability, if_neg (by norm_num : (5:ℝ) ≠ 0)]
    rw [if_neg (not_le.mpr hσ)]
    simp
  · rw [hstd5]
    have h0 : normal_cdf ((0 - 5) / 0.9) < normal_cdf ((10 - 5) / 0.9) :=
      normal_cdf_strict_mono (by norm_num)
    linarith

/-- Witness for C4's amended theorem: a "less" contract with cap 95 °F,
forecast 88 °F, σ = 1, one day ahead evaluates to the CDF form. -/
theorem fair_probability_spec_witness :
    fair_probability 88 none none (some 95) none none 1 1 "less" =
      (some (95 : ℝ)).map fun c => normal_cdf ((c - 88) / adjusted_std_of 88 none 1 1) :=
  ((fair_probability_spec 88 none none (some 95) 1 1 "less"
    (by norm_num) (by norm_num)).2.2.2.1) rfl

end Kalshi
